import Mathlib

/-!
Shallow embedding of the RTP packetizer of `src/src/rtp_packer.cpp`
(`camera_toolkit::RTPPacker::Impl`).

Modelling conventions:
* The input buffer (`char* inBuffer_` plus `int inBufferSize_`) is modelled as
  a total function `Nat → Nat` (byte at an offset) together with a size.  Every
  read goes through `byteAt`, which reduces the value mod 256, mirroring the
  fact that a C `char` read always yields a byte.  Reads past `inBufferSize`
  are possible in the C code (the start-code probes look up to two bytes past
  the end); with a total function they are well defined here as well.
* Pointers into the buffer (`nextNaluPtr_`, `nalu_.data`) become offsets;
  the null pointer becomes `Option.none`.
* Machine integers become `Nat` with explicit reductions: the `uint16_t`
  sequence number is kept reduced mod 65536 (the C increment wraps), and the
  RTP timestamp mod 2^32.  The wall clock (`getCurrentMillisec`) is an
  explicit parameter `now` of `get`; the `* 90.0` double multiplication is
  modelled as exact integer multiplication reduced mod 2^32 (the product of a
  `uint32` difference with 90 is below 2^39 and hence exactly representable
  as a double; the C cast back to `uint32_t` of a larger value would be
  undefined, the model truncates).
* The scan loop of `getNextNalu` is given explicit fuel (`inBufferSize`
  suffices, proved below); `throw PackException` becomes the
  `GetResult.overflow` outcome, carrying the mutated state exactly as the C++
  object keeps its mutated fields when the exception propagates.
-/

namespace RTPPacker

/-- A byte read from the modelled buffer: C `char` data is always a byte. -/
def byteAt (buf : Nat → Nat) (i : Nat) : Nat := buf i % 256

/-- Source constant `MAX_OUTBUF_SIZE = 10 * 1024`. -/
def MAX_OUTBUF_SIZE : Nat := 10240

/-- Source constant `H264_PAYLOAD_TYPE = 96`. -/
def H264_PAYLOAD_TYPE : Nat := 96

/-- Source `isStartCode3`: the 3-byte Annex-B start code `00 00 01`. -/
def isStartCode3 (buf : Nat → Nat) (i : Nat) : Bool :=
  byteAt buf i == 0 && byteAt buf (i + 1) == 0 && byteAt buf (i + 2) == 1

/-- Source `isStartCode4`: the 4-byte Annex-B start code `00 00 00 01`. -/
def isStartCode4 (buf : Nat → Nat) (i : Nat) : Bool :=
  byteAt buf i == 0 && byteAt buf (i + 1) == 0 && byteAt buf (i + 2) == 0 &&
    byteAt buf (i + 3) == 1

/-- Source `struct NALU`: a view into the input buffer (`data` is an offset). -/
structure NALU where
  startCodeLen : Nat
  dataOff : Nat
  len : Nat
  forbiddenBit : Nat
  nalRefIdc : Nat
  nalUnitType : Nat

/-- Source `RTPPackerParams`: configuration, immutable after construction. -/
structure RTPPackerParams where
  maxPacketLength : Nat
  ssrc : Nat

/-- The mutable fields of `RTPPacker::Impl` (member variables). -/
structure PackerState where
  inBuffer : Nat → Nat
  inBufferSize : Nat
  nextNaluPtr : Option Nat
  fuCounter : Nat
  lastFuSize : Nat
  fuIndex : Nat
  inBufferComplete : Bool
  naluComplete : Bool
  nalu : NALU
  seqNum : Nat
  tsStartMillisec : Nat
  tsCurrentSample : Nat

/-- The state right after the constructor ran at clock value `startMs`
(member initializers of `RTPPacker::Impl`). -/
def initState (startMs : Nat) : PackerState where
  inBuffer := fun _ => 0
  inBufferSize := 0
  nextNaluPtr := none
  fuCounter := 0
  lastFuSize := 0
  fuIndex := 0
  inBufferComplete := false
  naluComplete := true
  nalu := ⟨0, 0, 0, 0, 0, 0⟩
  seqNum := 0
  tsStartMillisec := startMs
  tsCurrentSample := 0

/-- Source `RTPPacker::Impl::put`: bind a new input buffer, reset the
per-buffer scan and fragmentation state.  The sequence number, the timestamp
fields and the current-NALU record are deliberately not touched. -/
def put (data : Nat → Nat) (size : Nat) (s : PackerState) : PackerState :=
  { s with
    inBuffer := data
    inBufferSize := size
    nextNaluPtr := some 0
    fuCounter := 0
    lastFuSize := 0
    fuIndex := 0
    inBufferComplete := false
    naluComplete := true }

/-- The `while (true)` scan loop of `getNextNalu` (lines 330-342): starting
from `ptr` (the byte just past the current start code), repeatedly advance by
one and stop at the buffer end or at the next start code.  Returns the final
`nextPtr` offset together with the new `nextNaluPtr_` (`none` after falling
off the end).  `fuel` only bounds the recursion; `fuel = size` is always
enough (`scanLoop_fuel_irrelevant` below). -/
def scanLoop (buf : Nat → Nat) (size : Nat) : Nat → Nat → Nat × Option Nat
  | ptr, 0 => (ptr + 1, none)
  | ptr, fuel + 1 =>
    let p := ptr + 1
    if size ≤ p then (p, none)
    else if isStartCode3 buf p || isStartCode4 buf p then (p, some p)
    else scanLoop buf size p fuel

/-- Success path of `getNextNalu` once the start code (length `scl`) at
offset `cur` has been recognized: scan for the end of the NALU, record the
view and the decoded header fields (lines 326-350). -/
def nextNaluAt (s : PackerState) (cur scl : Nat) : Int × PackerState :=
  let res := scanLoop s.inBuffer s.inBufferSize (cur + scl) s.inBufferSize
  let hdr := byteAt s.inBuffer (cur + scl)
  (1, { s with
          nextNaluPtr := res.2
          nalu := { startCodeLen := scl
                    dataOff := cur + scl
                    len := res.1 - cur - scl
                    forbiddenBit := hdr / 128
                    nalRefIdc := hdr / 32 % 4
                    nalUnitType := hdr % 32 } })

/-- Source `RTPPacker::Impl::getNextNalu`: return code (1 success, 0 no
buffer, -1 no start code at the scan position) together with the updated
state.  On success the current-NALU record and the scan cursor are updated;
otherwise the state is unchanged. -/
def getNextNalu (s : PackerState) : Int × PackerState :=
  match s.nextNaluPtr with
  | none => (0, s)
  | some cur =>
    if isStartCode3 s.inBuffer cur then nextNaluAt s cur 3
    else if isStartCode4 s.inBuffer cur then nextNaluAt s cur 4
    else (-1, s)

/-- The bytes `memcpy` would copy: `cnt` bytes of the buffer starting at
offset `start`. -/
def sliceBytes (buf : Nat → Nat) (start cnt : Nat) : List Nat :=
  (List.range cnt).map fun i => byteAt buf (start + i)

/-- The 12-byte generic RTP header, as laid out by the packed bit-field
struct `RTPHeader` on a little-endian host plus `htons`/`htonl`:
byte 0 is `version = 2` in the top two bits (0x80), byte 1 is the marker bit
over payload type 96, then big-endian sequence number, timestamp, SSRC. -/
def rtpHeaderBytes (marker : Bool) (seq ts ssrc : Nat) : List Nat :=
  [128, if marker then 224 else 96,
   seq / 256 % 256, seq % 256,
   ts / 16777216 % 256, ts / 65536 % 256, ts / 256 % 256, ts % 256,
   ssrc / 16777216 % 256, ssrc / 65536 % 256, ssrc / 256 % 256, ssrc % 256]

/-- The reassembled 1-byte NAL header (`NALUHeader` bit-fields: F NRI Type). -/
def naluHdrByte (n : NALU) : Nat :=
  n.forbiddenBit * 128 + n.nalRefIdc * 32 + n.nalUnitType

/-- The FU indicator byte (`FUIndicator` bit-fields, type fixed at 28). -/
def fuIndByte (n : NALU) : Nat :=
  n.forbiddenBit * 128 + n.nalRefIdc * 32 + 28

/-- The RTP timestamp computed at NALU-selection time (line 175): elapsed
milliseconds times 90, reduced to 32 bits. -/
def tsFor (now start : Nat) : Nat := ((now - start) * 90) % 4294967296

/-- The value stored into `fuCounter_` when fragmentation starts
(lines 200-206): `len / max - 1` when `max` divides `len`, else `len / max`. -/
def fragCount (len max : Nat) : Nat :=
  if len % max = 0 then len / max - 1 else len / max

/-- The value stored into `lastFuSize_` when fragmentation starts
(lines 200-206): `max` when `max` divides `len`, else `len % max`. -/
def lastSize (len max : Nat) : Nat :=
  if len % max = 0 then max else len % max

/-- Outcome of one `get` call: a packet (byte list plus post-state), the
"no more packets" result (`std::nullopt`), or the thrown `PackException`
(the post-state is the mutated object the exception leaves behind). -/
inductive GetResult where
  | packet (bytes : List Nat) (s : PackerState)
  | exhausted (s : PackerState)
  | overflow (s : PackerState)

/-- Source `RTPPacker::Impl::get`, one state transition.  `now` is the value
`getCurrentMillisec()` would return during this call. -/
def get (p : RTPPackerParams) (now : Nat) (s : PackerState) : GetResult :=
  if s.inBufferComplete then GetResult.exhausted s
  else if s.naluComplete then
    let ret := (getNextNalu s).1
    let s1 := (getNextNalu s).2
    if ret ≤ 0 then GetResult.exhausted { s1 with inBufferComplete := true }
    else
      let seq := s1.seqNum
      let ts := tsFor now s1.tsStartMillisec
      let s2 := { s1 with seqNum := (s1.seqNum + 1) % 65536, tsCurrentSample := ts }
      if s2.nalu.len ≤ p.maxPacketLength then
        -- whole-packet path (lines 178-197)
        if MAX_OUTBUF_SIZE < s2.nalu.len + 12 then GetResult.overflow s2
        else
          GetResult.packet
            (rtpHeaderBytes true seq ts p.ssrc ++
              naluHdrByte s2.nalu ::
                sliceBytes s2.inBuffer (s2.nalu.dataOff + 1) (s2.nalu.len - 1))
            { s2 with naluComplete := true }
      else
        -- first FU-A fragment (lines 198-235)
        let s3 := { s2 with
                      fuCounter := fragCount s2.nalu.len p.maxPacketLength
                      lastFuSize := lastSize s2.nalu.len p.maxPacketLength
                      fuIndex := 0 }
        if MAX_OUTBUF_SIZE < p.maxPacketLength + 14 then GetResult.overflow s3
        else
          GetResult.packet
            (rtpHeaderBytes false seq ts p.ssrc ++
              fuIndByte s3.nalu :: (128 + s3.nalu.nalUnitType) ::
                sliceBytes s3.inBuffer (s3.nalu.dataOff + 1) p.maxPacketLength)
            { s3 with naluComplete := false, fuIndex := 1 }
  else
    let seq := s.seqNum
    let s2 := { s with seqNum := (s.seqNum + 1) % 65536 }
    if s2.fuIndex = s2.fuCounter then
      -- last FU-A fragment (lines 241-268)
      if MAX_OUTBUF_SIZE < s2.lastFuSize - 1 + 14 then GetResult.overflow s2
      else
        GetResult.packet
          (rtpHeaderBytes true seq s2.tsCurrentSample p.ssrc ++
            fuIndByte s2.nalu :: (64 + s2.nalu.nalUnitType) ::
              sliceBytes s2.inBuffer
                (s2.nalu.dataOff + 1 + s2.fuIndex * p.maxPacketLength)
                (s2.lastFuSize - 1))
          { s2 with naluComplete := true, fuIndex := 0 }
    else
      -- middle FU-A fragment (lines 269-296)
      if MAX_OUTBUF_SIZE < p.maxPacketLength + 14 then GetResult.overflow s2
      else
        GetResult.packet
          (rtpHeaderBytes false seq s2.tsCurrentSample p.ssrc ++
            fuIndByte s2.nalu :: s2.nalu.nalUnitType ::
              sliceBytes s2.inBuffer
                (s2.nalu.dataOff + 1 + s2.fuIndex * p.maxPacketLength)
                p.maxPacketLength)
          { s2 with fuIndex := s2.fuIndex + 1 }

/-- One caller operation: bind a buffer (`put`) or ask for one packet
(`get`), with the clock value observed during that call. -/
inductive Op where
  | putOp (data : Nat → Nat) (size : Nat)
  | getOp (now : Nat)

/-- Result of running a list of operations: the packets emitted in order,
whether some `get` raised the overflow exception, and the final state
(the caller is assumed to catch the exception and continue). -/
structure RunResult where
  packets : List (List Nat)
  ovf : Bool
  final : PackerState

/-- Run a list of caller operations from a state. -/
def runOps (p : RTPPackerParams) : PackerState → List Op → RunResult
  | s, [] => ⟨[], false, s⟩
  | s, Op.putOp d n :: rest => runOps p (put d n s) rest
  | s, Op.getOp now :: rest =>
    match get p now s with
    | GetResult.packet b s' =>
      let r := runOps p s' rest
      ⟨b :: r.packets, r.ovf, r.final⟩
    | GetResult.exhausted s' => runOps p s' rest
    | GetResult.overflow s' =>
      let r := runOps p s' rest
      ⟨r.packets, true, r.final⟩

/-- Drive `get` through the remaining fragments of the current NALU: keep
calling until the NALU is complete, one clock value per call.  Stops early on
exhaustion of the clock list, on `std::nullopt`, or on the exception. -/
def emitFrags (p : RTPPackerParams) : PackerState → List Nat → List (List Nat) × PackerState
  | s, [] => ([], s)
  | s, now :: rest =>
    if s.naluComplete then ([], s)
    else
      match get p now s with
      | GetResult.packet b s' =>
        let r := emitFrags p s' rest
        (b :: r.1, r.2)
      | GetResult.exhausted s' => ([], s')
      | GetResult.overflow s' => ([], s')

/-- All packets `get` produces for the NALU it selects at state `s`: the
first call (clock `now`) plus the follow-up fragment calls (clocks `nows`). -/
def fragRun (p : RTPPackerParams) (now : Nat) (nows : List Nat) (s : PackerState) :
    List (List Nat) × PackerState :=
  match get p now s with
  | GetResult.packet b s' =>
    let r := emitFrags p s' nows
    (b :: r.1, r.2)
  | GetResult.exhausted s' => ([], s')
  | GetResult.overflow s' => ([], s')

/-- Sequence-number field of an emitted packet (bytes 2-3, big-endian). -/
def extractSeq (b : List Nat) : Nat := b.getD 2 0 * 256 + b.getD 3 0

/-- Marker bit of an emitted packet (top bit of byte 1). -/
def markerOf (b : List Nat) : Nat := b.getD 1 0 / 128

/-- FU header S bit of an emitted fragment (top bit of byte 13). -/
def sBitOf (b : List Nat) : Nat := b.getD 13 0 / 128

/-- FU header E bit of an emitted fragment (bit 6 of byte 13). -/
def eBitOf (b : List Nat) : Nat := b.getD 13 0 / 64 % 2

/-- Timestamp field of an emitted packet (bytes 4-7). -/
def tsBytesOf (b : List Nat) : List Nat :=
  [b.getD 4 0, b.getD 5 0, b.getD 6 0, b.getD 7 0]

/-- The packet size `get` computes for the transition out of `s` (the value
compared against `MAX_OUTBUF_SIZE`), `none` when the call takes an
exhaustion path and builds no packet. -/
def getOutSize (p : RTPPackerParams) (s : PackerState) : Option Nat :=
  if s.inBufferComplete then none
  else if s.naluComplete then
    if (getNextNalu s).1 ≤ 0 then none
    else if (getNextNalu s).2.nalu.len ≤ p.maxPacketLength then
      some ((getNextNalu s).2.nalu.len + 12)
    else some (p.maxPacketLength + 14)
  else if s.fuIndex = s.fuCounter then some (s.lastFuSize - 1 + 14)
  else some (p.maxPacketLength + 14)

/-- Reachable-state invariant used below: while a NALU is mid-fragmentation,
the recorded size of its final fragment is between 1 and the configured
maximum payload length. -/
def Inv (p : RTPPackerParams) (s : PackerState) : Prop :=
  s.naluComplete = false → 1 ≤ s.lastFuSize ∧ s.lastFuSize ≤ p.maxPacketLength

/-- Expected sequence-number run: `k` consecutive values from `n`, mod 2^16. -/
def mkSeqs (n k : Nat) : List Nat := (List.range k).map fun i => (n + i) % 65536

/-! ### Packet-shape helper lemmas -/

lemma rtpHeaderBytes_length (m : Bool) (seq ts c : Nat) :
    (rtpHeaderBytes m seq ts c).length = 12 := by
  simp [rtpHeaderBytes]

lemma rtpHeaderBytes_seq_mod (m : Bool) (seq ts c : Nat) :
    rtpHeaderBytes m (seq % 65536) ts c = rtpHeaderBytes m seq ts c := by
  have h1 : seq % 65536 / 256 % 256 = seq / 256 % 256 := by omega
  have h2 : seq % 65536 % 256 = seq % 256 := by omega
  simp only [rtpHeaderBytes, h1, h2]

lemma sliceBytes_length (buf : Nat → Nat) (a n : Nat) :
    (sliceBytes buf a n).length = n := by
  simp [sliceBytes]

lemma sliceBytes_append (buf : Nat → Nat) (a m n : Nat) :
    sliceBytes buf a m ++ sliceBytes buf (a + m) n = sliceBytes buf a (m + n) := by
  simp only [sliceBytes, List.range_add, List.map_append, List.map_map]
  congr 1
  simp [Function.comp, Nat.add_assoc]

lemma extractSeq_mk (m : Bool) (seq ts c : Nat) (rest : List Nat) :
    extractSeq (rtpHeaderBytes m seq ts c ++ rest) = seq % 65536 := by
  simp only [extractSeq, rtpHeaderBytes, List.cons_append, List.getD_cons_succ,
    List.getD_cons_zero]
  omega

lemma markerOf_mk (m : Bool) (seq ts c : Nat) (rest : List Nat) :
    markerOf (rtpHeaderBytes m seq ts c ++ rest) = if m then 1 else 0 := by
  cases m <;> simp [markerOf, rtpHeaderBytes]

lemma tsBytesOf_mk (m : Bool) (seq ts c : Nat) (rest : List Nat) :
    tsBytesOf (rtpHeaderBytes m seq ts c ++ rest) =
      [ts / 16777216 % 256, ts / 65536 % 256, ts / 256 % 256, ts % 256] := by
  simp [tsBytesOf, rtpHeaderBytes]

lemma byte13_mk (m : Bool) (seq ts c fi fh : Nat) (rest : List Nat) :
    (rtpHeaderBytes m seq ts c ++ fi :: fh :: rest).getD 13 0 = fh := by
  simp [rtpHeaderBytes]

lemma byte12_mk (m : Bool) (seq ts c b12 : Nat) (rest : List Nat) :
    (rtpHeaderBytes m seq ts c ++ b12 :: rest).getD 12 0 = b12 := by
  simp [rtpHeaderBytes]

lemma drop14_mk (m : Bool) (seq ts c fi fh : Nat) (rest : List Nat) :
    (rtpHeaderBytes m seq ts c ++ fi :: fh :: rest).drop 14 = rest := by
  simp [rtpHeaderBytes]

lemma drop13_mk (m : Bool) (seq ts c b12 : Nat) (rest : List Nat) :
    (rtpHeaderBytes m seq ts c ++ b12 :: rest).drop 13 = rest := by
  simp [rtpHeaderBytes]

lemma length_mk2 (m : Bool) (seq ts c fi fh : Nat) (rest : List Nat) :
    (rtpHeaderBytes m seq ts c ++ fi :: fh :: rest).length = 14 + rest.length := by
  simp [rtpHeaderBytes]; omega

lemma length_mk1 (m : Bool) (seq ts c b12 : Nat) (rest : List Nat) :
    (rtpHeaderBytes m seq ts c ++ b12 :: rest).length = 13 + rest.length := by
  simp [rtpHeaderBytes]; omega

/-! ### `getNextNalu` structural lemmas -/

lemma getNextNalu_preserve (s : PackerState) :
    (getNextNalu s).2.seqNum = s.seqNum ∧
    (getNextNalu s).2.inBuffer = s.inBuffer ∧
    (getNextNalu s).2.inBufferSize = s.inBufferSize ∧
    (getNextNalu s).2.inBufferComplete = s.inBufferComplete ∧
    (getNextNalu s).2.naluComplete = s.naluComplete ∧
    (getNextNalu s).2.tsStartMillisec = s.tsStartMillisec ∧
    (getNextNalu s).2.tsCurrentSample = s.tsCurrentSample ∧
    (getNextNalu s).2.fuCounter = s.fuCounter ∧
    (getNextNalu s).2.lastFuSize = s.lastFuSize ∧
    (getNextNalu s).2.fuIndex = s.fuIndex := by
  unfold getNextNalu
  cases hn : s.nextNaluPtr
  · simp
  · dsimp only
    split_ifs <;> simp [nextNaluAt]

lemma scanLoop_fst_lt (buf : Nat → Nat) (size : Nat) :
    ∀ fuel ptr, ptr < (scanLoop buf size ptr fuel).1 := by
  intro fuel
  induction fuel with
  | zero => intro ptr; simp [scanLoop]
  | succ n ih =>
    intro ptr
    simp only [scanLoop]
    split
    · simp
    split
    · simp
    · exact Nat.lt_trans (Nat.lt_succ_self ptr) (ih (ptr + 1))

lemma nextNaluAt_len_pos (s : PackerState) (cur scl : Nat) :
    1 ≤ (nextNaluAt s cur scl).2.nalu.len := by
  have := scanLoop_fst_lt s.inBuffer s.inBufferSize s.inBufferSize (cur + scl)
  simp only [nextNaluAt]
  omega

lemma getNextNalu_len_pos (s : PackerState) (h : (getNextNalu s).1 = 1) :
    1 ≤ (getNextNalu s).2.nalu.len := by
  unfold getNextNalu at h ⊢
  cases hn : s.nextNaluPtr with
  | none =>
    rw [hn] at h
    exact absurd (show (0 : Int) = 1 from h) (by omega)
  | some cur =>
    rw [hn] at h
    dsimp only at h ⊢
    split_ifs at h ⊢
    · exact nextNaluAt_len_pos s cur 3
    · exact nextNaluAt_len_pos s cur 4
    · exact absurd (show (-1 : Int) = 1 from h) (by omega)

/-! ### Branch characterizations of `get` -/

lemma get_complete (p : RTPPackerParams) (now : Nat) (s : PackerState)
    (h : s.inBufferComplete = true) : get p now s = GetResult.exhausted s := by
  simp [get, h]

lemma get_no_nalu (p : RTPPackerParams) (now : Nat) (s : PackerState)
    (hA : s.inBufferComplete = false) (hB : s.naluComplete = true)
    (hC : (getNextNalu s).1 ≤ 0) :
    get p now s =
      GetResult.exhausted { (getNextNalu s).2 with inBufferComplete := true } := by
  simp [get, hA, hB, hC]

lemma get_whole (p : RTPPackerParams) (now : Nat) (s : PackerState)
    (hA : s.inBufferComplete = false) (hB : s.naluComplete = true)
    (hC : (getNextNalu s).1 = 1)
    (hLen : (getNextNalu s).2.nalu.len ≤ p.maxPacketLength)
    (hCap : (getNextNalu s).2.nalu.len + 12 ≤ 10240) :
    get p now s = GetResult.packet
      (rtpHeaderBytes true (getNextNalu s).2.seqNum
          (tsFor now (getNextNalu s).2.tsStartMillisec) p.ssrc ++
        naluHdrByte (getNextNalu s).2.nalu ::
          sliceBytes (getNextNalu s).2.inBuffer ((getNextNalu s).2.nalu.dataOff + 1)
            ((getNextNalu s).2.nalu.len - 1))
      { (getNextNalu s).2 with
          seqNum := ((getNextNalu s).2.seqNum + 1) % 65536
          tsCurrentSample := tsFor now (getNextNalu s).2.tsStartMillisec
          naluComplete := true } := by
  have hno : ¬ (MAX_OUTBUF_SIZE < (getNextNalu s).2.nalu.len + 12) := by
    simp [MAX_OUTBUF_SIZE]; omega
  simp [get, hA, hB, hC, hLen, hno, naluHdrByte]

lemma get_whole_ovf (p : RTPPackerParams) (now : Nat) (s : PackerState)
    (hA : s.inBufferComplete = false) (hB : s.naluComplete = true)
    (hC : (getNextNalu s).1 = 1)
    (hLen : (getNextNalu s).2.nalu.len ≤ p.maxPacketLength)
    (hCap : 10240 < (getNextNalu s).2.nalu.len + 12) :
    get p now s = GetResult.overflow
      { (getNextNalu s).2 with
          seqNum := ((getNextNalu s).2.seqNum + 1) % 65536
          tsCurrentSample := tsFor now (getNextNalu s).2.tsStartMillisec } := by
  have hyes : MAX_OUTBUF_SIZE < (getNextNalu s).2.nalu.len + 12 := by
    simp [MAX_OUTBUF_SIZE]; omega
  simp [get, hA, hB, hC, hLen, hyes]

lemma get_frag_first (p : RTPPackerParams) (now : Nat) (s : PackerState)
    (hA : s.inBufferComplete = false) (hB : s.naluComplete = true)
    (hC : (getNextNalu s).1 = 1)
    (hLen : p.maxPacketLength < (getNextNalu s).2.nalu.len)
    (hCap : p.maxPacketLength + 14 ≤ 10240) :
    get p now s = GetResult.packet
      (rtpHeaderBytes false (getNextNalu s).2.seqNum
          (tsFor now (getNextNalu s).2.tsStartMillisec) p.ssrc ++
        fuIndByte (getNextNalu s).2.nalu :: (128 + (getNextNalu s).2.nalu.nalUnitType) ::
          sliceBytes (getNextNalu s).2.inBuffer ((getNextNalu s).2.nalu.dataOff + 1)
            p.maxPacketLength)
      { (getNextNalu s).2 with
          seqNum := ((getNextNalu s).2.seqNum + 1) % 65536
          tsCurrentSample := tsFor now (getNextNalu s).2.tsStartMillisec
          fuCounter := fragCount (getNextNalu s).2.nalu.len p.maxPacketLength
          lastFuSize := lastSize (getNextNalu s).2.nalu.len p.maxPacketLength
          fuIndex := 1
          naluComplete := false } := by
  have hnotle : ¬ ((getNextNalu s).2.nalu.len ≤ p.maxPacketLength) := by omega
  have hno : ¬ (MAX_OUTBUF_SIZE < p.maxPacketLength + 14) := by
    simp [MAX_OUTBUF_SIZE]; omega
  simp [get, hA, hB, hC, hnotle, hno, fuIndByte]

lemma get_frag_first_ovf (p : RTPPackerParams) (now : Nat) (s : PackerState)
    (hA : s.inBufferComplete = false) (hB : s.naluComplete = true)
    (hC : (getNextNalu s).1 = 1)
    (hLen : p.maxPacketLength < (getNextNalu s).2.nalu.len)
    (hCap : 10240 < p.maxPacketLength + 14) :
    get p now s = GetResult.overflow
      { (getNextNalu s).2 with
          seqNum := ((getNextNalu s).2.seqNum + 1) % 65536
          tsCurrentSample := tsFor now (getNextNalu s).2.tsStartMillisec
          fuCounter := fragCount (getNextNalu s).2.nalu.len p.maxPacketLength
          lastFuSize := lastSize (getNextNalu s).2.nalu.len p.maxPacketLength
          fuIndex := 0 } := by
  have hnotle : ¬ ((getNextNalu s).2.nalu.len ≤ p.maxPacketLength) := by omega
  have hyes : MAX_OUTBUF_SIZE < p.maxPacketLength + 14 := by
    simp [MAX_OUTBUF_SIZE]; omega
  simp [get, hA, hB, hC, hnotle, hyes]

lemma get_frag_mid (p : RTPPackerParams) (now : Nat) (s : PackerState)
    (hA : s.inBufferComplete = false) (hB : s.naluComplete = false)
    (hne : s.fuIndex ≠ s.fuCounter) (hCap : p.maxPacketLength + 14 ≤ 10240) :
    get p now s = GetResult.packet
      (rtpHeaderBytes false s.seqNum s.tsCurrentSample p.ssrc ++
        fuIndByte s.nalu :: s.nalu.nalUnitType ::
          sliceBytes s.inBuffer (s.nalu.dataOff + 1 + s.fuIndex * p.maxPacketLength)
            p.maxPacketLength)
      { s with seqNum := (s.seqNum + 1) % 65536, fuIndex := s.fuIndex + 1 } := by
  have hno : ¬ (MAX_OUTBUF_SIZE < p.maxPacketLength + 14) := by
    simp [MAX_OUTBUF_SIZE]; omega
  simp [get, hA, hB, hne, hno, fuIndByte]

lemma get_frag_mid_ovf (p : RTPPackerParams) (now : Nat) (s : PackerState)
    (hA : s.inBufferComplete = false) (hB : s.naluComplete = false)
    (hne : s.fuIndex ≠ s.fuCounter) (hCap : 10240 < p.maxPacketLength + 14) :
    get p now s = GetResult.overflow { s with seqNum := (s.seqNum + 1) % 65536 } := by
  have hyes : MAX_OUTBUF_SIZE < p.maxPacketLength + 14 := by
    simp [MAX_OUTBUF_SIZE]; omega
  simp [get, hA, hB, hne, hyes]

lemma get_frag_last (p : RTPPackerParams) (now : Nat) (s : PackerState)
    (hA : s.inBufferComplete = false) (hB : s.naluComplete = false)
    (heq : s.fuIndex = s.fuCounter) (hCap : s.lastFuSize - 1 + 14 ≤ 10240) :
    get p now s = GetResult.packet
      (rtpHeaderBytes true s.seqNum s.tsCurrentSample p.ssrc ++
        fuIndByte s.nalu :: (64 + s.nalu.nalUnitType) ::
          sliceBytes s.inBuffer (s.nalu.dataOff + 1 + s.fuIndex * p.maxPacketLength)
            (s.lastFuSize - 1))
      { s with seqNum := (s.seqNum + 1) % 65536, naluComplete := true, fuIndex := 0 } := by
  have hno : ¬ (MAX_OUTBUF_SIZE < s.lastFuSize - 1 + 14) := by
    simp [MAX_OUTBUF_SIZE]; omega
  simp [get, hA, hB, heq, hno, fuIndByte]

lemma get_frag_last_ovf (p : RTPPackerParams) (now : Nat) (s : PackerState)
    (hA : s.inBufferComplete = false) (hB : s.naluComplete = false)
    (heq : s.fuIndex = s.fuCounter) (hCap : 10240 < s.lastFuSize - 1 + 14) :
    get p now s = GetResult.overflow { s with seqNum := (s.seqNum + 1) % 65536 } := by
  have hyes : MAX_OUTBUF_SIZE < s.lastFuSize - 1 + 14 := by
    simp [MAX_OUTBUF_SIZE]; omega
  simp [get, hA, hB, heq, hyes]

/-! ### The fragment loop -/

lemma emitFrags_done (p : RTPPackerParams) (s : PackerState) (nows : List Nat)
    (h : s.naluComplete = true) : emitFrags p s nows = ([], s) := by
  cases nows <;> simp [emitFrags, h]

lemma rtpHeaderBytes_seq_congr (m : Bool) (seq1 seq2 ts c : Nat)
    (h : seq1 % 65536 = seq2 % 65536) :
    rtpHeaderBytes m seq1 ts c = rtpHeaderBytes m seq2 ts c := by
  have h1 : seq1 / 256 % 256 = seq2 / 256 % 256 := by omega
  have h2 : seq1 % 256 = seq2 % 256 := by omega
  simp only [rtpHeaderBytes, h1, h2]

lemma emitFrags_run (p : RTPPackerParams) :
    ∀ (k : Nat) (nows : List Nat) (s : PackerState),
      s.inBufferComplete = false → s.naluComplete = false →
      s.fuIndex + k = s.fuCounter →
      s.lastFuSize ≤ p.maxPacketLength →
      p.maxPacketLength + 14 ≤ 10240 →
      k + 1 ≤ nows.length →
      emitFrags p s nows =
        ((List.range k).map (fun j =>
            rtpHeaderBytes false (s.seqNum + j) s.tsCurrentSample p.ssrc ++
              fuIndByte s.nalu :: s.nalu.nalUnitType ::
                sliceBytes s.inBuffer
                  (s.nalu.dataOff + 1 + (s.fuIndex + j) * p.maxPacketLength)
                  p.maxPacketLength)
          ++ [rtpHeaderBytes true (s.seqNum + k) s.tsCurrentSample p.ssrc ++
              fuIndByte s.nalu :: (64 + s.nalu.nalUnitType) ::
                sliceBytes s.inBuffer
                  (s.nalu.dataOff + 1 + s.fuCounter * p.maxPacketLength)
                  (s.lastFuSize - 1)],
         { s with naluComplete := true, fuIndex := 0,
                  seqNum := (s.seqNum + k + 1) % 65536 }) := by
  intro k
  induction k with
  | zero =>
    intro nows s hA hB hK hLe hCap hFuel
    cases nows with
    | nil => simp at hFuel
    | cons now rest =>
      have heq : s.fuIndex = s.fuCounter := by omega
      have hCapL : s.lastFuSize - 1 + 14 ≤ 10240 := by omega
      simp only [emitFrags, hB]
      rw [get_frag_last p now s hA hB heq hCapL]
      dsimp only
      rw [emitFrags_done p _ rest (by simp)]
      simp [heq]
  | succ k ih =>
    intro nows s hA hB hK hLe hCap hFuel
    cases nows with
    | nil => simp at hFuel
    | cons now rest =>
      have hne : s.fuIndex ≠ s.fuCounter := by omega
      simp only [emitFrags, hB]
      rw [get_frag_mid p now s hA hB hne hCap]
      dsimp only
      rw [ih rest { s with seqNum := (s.seqNum + 1) % 65536, fuIndex := s.fuIndex + 1 }
        (by simp [hA]) (by simp [hB]) (by simp; omega) (by simp [hLe]) hCap
        (by simp at hFuel ⊢; omega)]
      simp only [Bool.false_eq_true, if_false, List.range_succ_eq_map, List.map_cons,
        List.map_map, Prod.mk.injEq, Nat.succ_eq_add_one]
      refine ⟨?_, ?_⟩
      · simp only [Nat.add_zero, List.cons.injEq, eq_self_iff_true, true_and]
        congr 1
        congr 1
        · apply List.map_congr_left
          intro j hj
          simp only [Function.comp, Nat.succ_eq_add_one]
          rw [rtpHeaderBytes_seq_congr false ((s.seqNum + 1) % 65536 + j) (s.seqNum + (j + 1))
            s.tsCurrentSample p.ssrc (by omega)]
          have hidx : s.fuIndex + 1 + j = s.fuIndex + (j + 1) := by omega
          rw [hidx]
        · rw [rtpHeaderBytes_seq_congr true ((s.seqNum + 1) % 65536 + k) (s.seqNum + (k + 1))
            s.tsCurrentSample p.ssrc (by omega)]
      · simp only [PackerState.mk.injEq, eq_self_iff_true, and_true, true_and]
        omega


/-! ### Arithmetic of the fragment counters and the per-NALU run -/

lemma fragCount_pos (len max : Nat) (hM : 1 ≤ max) (hLen : max < len) :
    1 ≤ fragCount len max := by
  unfold fragCount
  split_ifs with hr
  · obtain ⟨t, ht⟩ := Nat.dvd_of_mod_eq_zero hr
    subst ht
    rw [Nat.mul_div_cancel_left t (by omega)]
    rcases Nat.lt_or_ge t 2 with h2 | h2
    · interval_cases t <;> omega
    · omega
  · exact (Nat.one_le_div_iff (by omega)).2 (by omega)

lemma fragCount_le_len (len max : Nat) : fragCount len max ≤ len := by
  unfold fragCount
  split_ifs
  · exact Nat.le_trans (Nat.sub_le _ _) (Nat.div_le_self len max)
  · exact Nat.div_le_self len max

lemma lastSize_le (len max : Nat) (hM : 1 ≤ max) : lastSize len max ≤ max := by
  unfold lastSize
  split_ifs
  · exact le_refl _
  · exact le_of_lt (Nat.mod_lt _ (by omega))

lemma lastSize_pos (len max : Nat) (hM : 1 ≤ max) : 1 ≤ lastSize len max := by
  unfold lastSize
  split_ifs with hr
  · omega
  · omega

lemma fragCount_mul_add (len max : Nat) (hM : 1 ≤ max) (hLen : max < len) :
    fragCount len max * max + lastSize len max = len := by
  have hdm : len / max * max + len % max = len := Nat.div_add_mod' len max
  have hq : 1 ≤ len / max := by
    rw [Nat.one_le_div_iff (by omega : 0 < max)]
    omega
  unfold fragCount lastSize
  split_ifs with hr
  · rw [Nat.sub_mul, one_mul]
    have hle : max ≤ len / max * max := by
      calc max = 1 * max := by omega
      _ ≤ len / max * max := Nat.mul_le_mul_right max hq
    omega
  · omega

lemma fragRun_spec (p : RTPPackerParams) (now : Nat) (nows : List Nat) (s : PackerState)
    (hA : s.inBufferComplete = false) (hB : s.naluComplete = true)
    (hC : (getNextNalu s).1 = 1)
    (hM : 1 ≤ p.maxPacketLength)
    (hLen : p.maxPacketLength < (getNextNalu s).2.nalu.len)
    (hCap : p.maxPacketLength + 14 ≤ 10240)
    (hFuel : (getNextNalu s).2.nalu.len ≤ nows.length) :
    fragRun p now nows s =
      ((rtpHeaderBytes false (getNextNalu s).2.seqNum
          (tsFor now (getNextNalu s).2.tsStartMillisec) p.ssrc ++
          fuIndByte (getNextNalu s).2.nalu :: (128 + (getNextNalu s).2.nalu.nalUnitType) ::
            sliceBytes (getNextNalu s).2.inBuffer ((getNextNalu s).2.nalu.dataOff + 1)
              p.maxPacketLength) ::
        ((List.range (fragCount (getNextNalu s).2.nalu.len p.maxPacketLength - 1)).map (fun j =>
          rtpHeaderBytes false ((getNextNalu s).2.seqNum + 1 + j)
              (tsFor now (getNextNalu s).2.tsStartMillisec) p.ssrc ++
            fuIndByte (getNextNalu s).2.nalu :: (getNextNalu s).2.nalu.nalUnitType ::
              sliceBytes (getNextNalu s).2.inBuffer
                ((getNextNalu s).2.nalu.dataOff + 1 + (1 + j) * p.maxPacketLength)
                p.maxPacketLength) ++
        [rtpHeaderBytes true
            ((getNextNalu s).2.seqNum + fragCount (getNextNalu s).2.nalu.len p.maxPacketLength)
            (tsFor now (getNextNalu s).2.tsStartMillisec) p.ssrc ++
          fuIndByte (getNextNalu s).2.nalu :: (64 + (getNextNalu s).2.nalu.nalUnitType) ::
            sliceBytes (getNextNalu s).2.inBuffer
              ((getNextNalu s).2.nalu.dataOff + 1 +
                fragCount (getNextNalu s).2.nalu.len p.maxPacketLength * p.maxPacketLength)
              (lastSize (getNextNalu s).2.nalu.len p.maxPacketLength - 1)]),
       { (getNextNalu s).2 with
           seqNum := ((getNextNalu s).2.seqNum +
             fragCount (getNextNalu s).2.nalu.len p.maxPacketLength + 1) % 65536
           tsCurrentSample := tsFor now (getNextNalu s).2.tsStartMillisec
           fuCounter := fragCount (getNextNalu s).2.nalu.len p.maxPacketLength
           lastFuSize := lastSize (getNextNalu s).2.nalu.len p.maxPacketLength
           fuIndex := 0
           naluComplete := true }) := by
  have hpre := getNextNalu_preserve s
  have hc1 : 1 ≤ fragCount (getNextNalu s).2.nalu.len p.maxPacketLength :=
    fragCount_pos _ _ hM hLen
  have hqle : fragCount (getNextNalu s).2.nalu.len p.maxPacketLength ≤
      (getNextNalu s).2.nalu.len := fragCount_le_len _ _
  have hlle : lastSize (getNextNalu s).2.nalu.len p.maxPacketLength ≤ p.maxPacketLength :=
    lastSize_le _ _ hM
  unfold fragRun
  rw [get_frag_first p now s hA hB hC hLen hCap]
  dsimp only
  rw [emitFrags_run p (fragCount (getNextNalu s).2.nalu.len p.maxPacketLength - 1) nows
      { (getNextNalu s).2 with
          seqNum := ((getNextNalu s).2.seqNum + 1) % 65536
          tsCurrentSample := tsFor now (getNextNalu s).2.tsStartMillisec
          fuCounter := fragCount (getNextNalu s).2.nalu.len p.maxPacketLength
          lastFuSize := lastSize (getNextNalu s).2.nalu.len p.maxPacketLength
          fuIndex := 1
          naluComplete := false }
      (by show (getNextNalu s).2.inBufferComplete = false; rw [hpre.2.2.2.1]; exact hA)
      rfl
      (by show 1 + (fragCount (getNextNalu s).2.nalu.len p.maxPacketLength - 1) =
            fragCount (getNextNalu s).2.nalu.len p.maxPacketLength; omega)
      (by show lastSize (getNextNalu s).2.nalu.len p.maxPacketLength ≤ p.maxPacketLength
          exact hlle)
      hCap
      (by show fragCount (getNextNalu s).2.nalu.len p.maxPacketLength - 1 + 1 ≤ nows.length
          omega)]
  dsimp only
  have hseqlast : (((getNextNalu s).2.seqNum + 1) % 65536 +
      (fragCount (getNextNalu s).2.nalu.len p.maxPacketLength - 1) + 1) % 65536 =
      ((getNextNalu s).2.seqNum +
        fragCount (getNextNalu s).2.nalu.len p.maxPacketLength + 1) % 65536 := by
    omega
  rw [hseqlast,
    rtpHeaderBytes_seq_congr true
      (((getNextNalu s).2.seqNum + 1) % 65536 +
        (fragCount (getNextNalu s).2.nalu.len p.maxPacketLength - 1))
      ((getNextNalu s).2.seqNum + fragCount (getNextNalu s).2.nalu.len p.maxPacketLength)
      (tsFor now (getNextNalu s).2.tsStartMillisec) p.ssrc (by omega)]
  congr 1
  · congr 1
    congr 1
    apply List.map_congr_left
    intro j hj
    rw [rtpHeaderBytes_seq_congr false (((getNextNalu s).2.seqNum + 1) % 65536 + j)
      ((getNextNalu s).2.seqNum + 1 + j)
      (tsFor now (getNextNalu s).2.tsStartMillisec) p.ssrc (by omega)]


/-! ### Sequence-number accounting across traces -/

lemma get_packet_seq (p : RTPPackerParams) (now : Nat) (s : PackerState) (b : List Nat)
    (s' : PackerState) (h : get p now s = GetResult.packet b s') :
    extractSeq b = s.seqNum % 65536 ∧ s'.seqNum = (s.seqNum + 1) % 65536 := by
  have hpre := (getNextNalu_preserve s).1
  unfold get at h
  dsimp only at h
  split_ifs at h <;>
    first
      | exact GetResult.noConfusion h
      | (obtain ⟨hb, hs⟩ := GetResult.packet.inj h
         subst hb
         subst hs
         exact ⟨by simp [extractSeq_mk, hpre], by simp [hpre]⟩)

lemma get_exhausted_seq (p : RTPPackerParams) (now : Nat) (s : PackerState)
    (s' : PackerState) (h : get p now s = GetResult.exhausted s') :
    s'.seqNum = s.seqNum := by
  have hpre := (getNextNalu_preserve s).1
  unfold get at h
  dsimp only at h
  split_ifs at h <;>
    first
      | exact GetResult.noConfusion h
      | (obtain hs := GetResult.exhausted.inj h
         subst hs
         simp [hpre])

lemma get_overflow_seq (p : RTPPackerParams) (now : Nat) (s : PackerState)
    (s' : PackerState) (h : get p now s = GetResult.overflow s') :
    s'.seqNum = (s.seqNum + 1) % 65536 := by
  have hpre := (getNextNalu_preserve s).1
  unfold get at h
  dsimp only at h
  split_ifs at h <;>
    first
      | exact GetResult.noConfusion h
      | (obtain hs := GetResult.overflow.inj h
         subst hs
         simp [hpre])

lemma mkSeqs_base_mod (n k : Nat) : mkSeqs (n % 65536) k = mkSeqs n k := by
  unfold mkSeqs
  apply List.map_congr_left
  intro i hi
  omega

lemma mkSeqs_succ (n k : Nat) : mkSeqs n (k + 1) = n % 65536 :: mkSeqs (n + 1) k := by
  unfold mkSeqs
  rw [List.range_succ_eq_map]
  simp only [List.map_cons, List.map_map, Nat.add_zero]
  congr 1
  apply List.map_congr_left
  intro i hi
  simp only [Function.comp, Nat.succ_eq_add_one]
  omega

lemma mkSeqs_chain (n k : Nat) :
    List.Chain' (fun x y => y = (x + 1) % 65536) (mkSeqs n k) := by
  induction k generalizing n with
  | zero => simp [mkSeqs]
  | succ k ih =>
    rw [mkSeqs_succ]
    cases k with
    | zero => simp [mkSeqs]
    | succ k2 =>
      rw [mkSeqs_succ]
      rw [List.chain'_cons]
      refine ⟨by omega, ?_⟩
      rw [← mkSeqs_succ]
      exact ih (n + 1)

lemma runOps_seq_run (p : RTPPackerParams) :
    ∀ (ops : List Op) (s : PackerState),
      (runOps p s ops).ovf = false →
      (runOps p s ops).packets.map extractSeq =
        mkSeqs s.seqNum (runOps p s ops).packets.length := by
  intro ops
  induction ops with
  | nil => intro s h; simp [runOps, mkSeqs]
  | cons op rest ih =>
    intro s h
    cases op with
    | putOp d n =>
      simp only [runOps] at h ⊢
      have hput : (put d n s).seqNum = s.seqNum := rfl
      rw [ih _ h, hput]
    | getOp now =>
      simp only [runOps] at h ⊢
      cases hg : get p now s with
      | packet b s2 =>
        rw [hg] at h
        dsimp only at h ⊢
        obtain ⟨hseq, hstep⟩ := get_packet_seq p now s b s2 hg
        rw [List.map_cons, List.length_cons, ih s2 h, hstep, hseq,
          mkSeqs_succ, mkSeqs_base_mod]
      | exhausted s2 =>
        rw [hg] at h
        dsimp only at h ⊢
        have hst := get_exhausted_seq p now s s2 hg
        rw [ih s2 h, hst]
      | overflow s2 =>
        rw [hg] at h
        dsimp only at h
        exact absurd h (by simp)


/-! ### Closed-form runs of the scan loop -/

lemma scanLoop_stops_at_end (buf : Nat → Nat) (size : Nat) :
    ∀ (fuel a : Nat), a < size → size - a ≤ fuel →
      (∀ j, a < j → j < size → (isStartCode3 buf j || isStartCode4 buf j) = false) →
      scanLoop buf size a fuel = (size, none) := by
  intro fuel
  induction fuel with
  | zero => intro a ha hf hmid; omega
  | succ fuel ih =>
    intro a ha hf hmid
    simp only [scanLoop]
    rcases Nat.lt_or_ge (a + 1) size with hlt | hge
    · rw [if_neg (by omega)]
      rw [hmid (a + 1) (by omega) hlt]
      rw [if_neg (by simp)]
      exact ih (a + 1) hlt (by omega) (fun j h1 h2 => hmid j (by omega) h2)
    · rw [if_pos (by omega)]
      have : a + 1 = size := by omega
      rw [this]

lemma scanLoop_stops_at_sc (buf : Nat → Nat) (size : Nat) :
    ∀ (fuel a b : Nat), a < b → b < size → b - a ≤ fuel →
      (∀ j, a < j → j < b → (isStartCode3 buf j || isStartCode4 buf j) = false) →
      (isStartCode3 buf b || isStartCode4 buf b) = true →
      scanLoop buf size a fuel = (b, some b) := by
  intro fuel
  induction fuel with
  | zero => intro a b hab hbs hf hmid hsc; omega
  | succ fuel ih =>
    intro a b hab hbs hf hmid hsc
    simp only [scanLoop]
    rw [if_neg (by omega)]
    rcases Nat.lt_or_ge (a + 1) b with hlt | hge
    · rw [hmid (a + 1) (by omega) hlt]
      rw [if_neg (by simp)]
      exact ih (a + 1) b hlt hbs (by omega)
        (fun j h1 h2 => hmid j (by omega) h2) hsc
    · have : a + 1 = b := by omega
      rw [this, hsc, if_pos rfl]


/-! ### Concrete overflow scenarios (scratch-buffer capacity 10240) -/

/-- Constructor-level test for the overflow outcome. -/
def isOverflowB : GetResult → Bool
  | GetResult.overflow _ => true
  | _ => false

def bufC3 : Nat → Nat := fun i => if i = 2 then 1 else if i < 2 then 0 else 65

def pC3 : RTPPackerParams := ⟨20000, 0⟩

def sC3 : PackerState := put bufC3 10232 (initState 0)

lemma bufC3_mid (j : Nat) (h1 : 3 < j) :
    (isStartCode3 bufC3 j || isStartCode4 bufC3 j) = false := by
  have hb : bufC3 j = 65 := by
    unfold bufC3
    rw [if_neg (by omega), if_neg (by omega)]
  simp [isStartCode3, isStartCode4, byteAt, hb]

lemma scanC3 : scanLoop bufC3 10232 3 10232 = (10232, none) :=
  scanLoop_stops_at_end bufC3 10232 10232 3 (by omega) (by omega)
    (fun j h1 h2 => bufC3_mid j h1)

def naluC3 : NALU := ⟨3, 3, 10229, 0, 2, 1⟩

lemma nnC3 : getNextNalu sC3 = (1, { sC3 with nextNaluPtr := none, nalu := naluC3 }) := by
  unfold getNextNalu
  rw [show sC3.nextNaluPtr = some 0 from rfl]
  dsimp only
  rw [show isStartCode3 sC3.inBuffer 0 = true from by decide]
  rw [if_pos rfl]
  unfold nextNaluAt
  rw [show sC3.inBuffer = bufC3 from rfl, show sC3.inBufferSize = 10232 from rfl, scanC3]
  rfl

lemma runOps_put (p : RTPPackerParams) (d : Nat → Nat) (n : Nat) (s : PackerState)
    (rest : List Op) :
    runOps p s (Op.putOp d n :: rest) = runOps p (put d n s) rest := by
  simp only [runOps]

lemma runOps_get_packet (p : RTPPackerParams) (now : Nat) (s : PackerState)
    (b : List Nat) (s' : PackerState) (rest : List Op)
    (h : get p now s = GetResult.packet b s') :
    runOps p s (Op.getOp now :: rest) =
      ⟨b :: (runOps p s' rest).packets, (runOps p s' rest).ovf,
        (runOps p s' rest).final⟩ := by
  simp only [runOps]
  rw [h]

lemma runOps_get_overflow (p : RTPPackerParams) (now : Nat) (s : PackerState)
    (s' : PackerState) (rest : List Op)
    (h : get p now s = GetResult.overflow s') :
    runOps p s (Op.getOp now :: rest) =
      ⟨(runOps p s' rest).packets, true, (runOps p s' rest).final⟩ := by
  simp only [runOps]
  rw [h]

def bufB : Nat → Nat := fun i =>
  if i = 2 ∨ i = 10240 then 1 else if i ≤ 1 ∨ i = 10238 ∨ i = 10239 then 0 else 66

def pC4 : RTPPackerParams := ⟨10227, 0⟩

def sA : PackerState := put bufC3 5 (initState 0)

def naluA : NALU := ⟨3, 3, 2, 0, 2, 1⟩

def pktA : List Nat := rtpHeaderBytes true 0 0 0 ++ 65 :: sliceBytes bufC3 4 1

def stA : PackerState :=
  { sA with nextNaluPtr := none, nalu := naluA, seqNum := 1, tsCurrentSample := 0 }

lemma hget1 : get pC4 0 sA = GetResult.packet pktA stA := rfl

def sB : PackerState := put bufB 10242 stA

def naluB : NALU := ⟨3, 3, 10235, 0, 2, 2⟩

def stB : PackerState := { sB with nextNaluPtr := some 10238, nalu := naluB }

lemma bufB_mid (j : Nat) (h1 : 3 < j) (h2 : j < 10238) :
    (isStartCode3 bufB j || isStartCode4 bufB j) = false := by
  have hb : bufB j = 66 := by
    unfold bufB
    rw [if_neg (by omega), if_neg (by omega)]
  simp [isStartCode3, isStartCode4, byteAt, hb]

lemma scanB : scanLoop bufB 10242 3 10242 = (10238, some 10238) :=
  scanLoop_stops_at_sc bufB 10242 10242 3 10238 (by omega) (by omega) (by omega)
    (fun j h1 h2 => bufB_mid j h1 h2) (by decide)

lemma hnnB : getNextNalu sB = (1, stB) := by
  unfold getNextNalu
  rw [show sB.nextNaluPtr = some 0 from rfl]
  dsimp only
  rw [show isStartCode3 sB.inBuffer 0 = true from by decide]
  rw [if_pos rfl]
  unfold nextNaluAt
  rw [show sB.inBuffer = bufB from rfl, show sB.inBufferSize = 10242 from rfl, scanB]
  rfl

def stB2 : PackerState :=
  { stB with
      seqNum := 2
      tsCurrentSample := 0
      fuCounter := 1
      lastFuSize := 8
      fuIndex := 0 }

lemma hget2 : get pC4 0 sB = GetResult.overflow stB2 := by
  rw [get_frag_first_ovf pC4 0 sB rfl rfl (by rw [hnnB]) (by rw [hnnB]; decide) (by decide)]
  rw [hnnB]
  rfl

def naluC : NALU := ⟨3, 10241, 1, 0, 2, 2⟩

def pktC : List Nat := rtpHeaderBytes true 2 0 0 ++ 66 :: sliceBytes bufB 10242 0

def stC2 : PackerState :=
  { stB2 with nextNaluPtr := none, nalu := naluC, seqNum := 3, tsCurrentSample := 0 }

lemma hget3 : get pC4 0 stB2 = GetResult.packet pktC stC2 := rfl

def opsC4 : List Op :=
  [Op.putOp bufC3 5, Op.getOp 0, Op.putOp bufB 10242, Op.getOp 0, Op.getOp 0]

/-! ### Decoded-header facts and slice concatenation -/

lemma sBitOf_mk (m : Bool) (seq ts c fi fh : Nat) (rest : List Nat) :
    sBitOf (rtpHeaderBytes m seq ts c ++ fi :: fh :: rest) = fh / 128 := by
  unfold sBitOf
  rw [byte13_mk]

lemma eBitOf_mk (m : Bool) (seq ts c fi fh : Nat) (rest : List Nat) :
    eBitOf (rtpHeaderBytes m seq ts c ++ fi :: fh :: rest) = fh / 64 % 2 := by
  unfold eBitOf
  rw [byte13_mk]

lemma nextNaluAt_type_lt (s : PackerState) (cur scl : Nat) :
    (nextNaluAt s cur scl).2.nalu.nalUnitType < 32 := by
  simp only [nextNaluAt]
  omega

lemma getNextNalu_type_lt (s : PackerState) (h : (getNextNalu s).1 = 1) :
    (getNextNalu s).2.nalu.nalUnitType < 32 := by
  unfold getNextNalu at h ⊢
  cases hn : s.nextNaluPtr with
  | none =>
    rw [hn] at h
    exact absurd (show (0 : Int) = 1 from h) (by omega)
  | some cur =>
    rw [hn] at h
    dsimp only at h ⊢
    split_ifs at h ⊢
    · exact nextNaluAt_type_lt s cur 3
    · exact nextNaluAt_type_lt s cur 4
    · exact absurd (show (-1 : Int) = 1 from h) (by omega)

lemma nextNaluAt_hdrByte (s : PackerState) (cur scl : Nat) :
    naluHdrByte (nextNaluAt s cur scl).2.nalu =
      byteAt s.inBuffer ((nextNaluAt s cur scl).2.nalu.dataOff) := by
  simp only [nextNaluAt, naluHdrByte]
  have : byteAt s.inBuffer (cur + scl) < 256 := Nat.mod_lt _ (by omega)
  omega

lemma getNextNalu_hdrByte (s : PackerState) (h : (getNextNalu s).1 = 1) :
    naluHdrByte (getNextNalu s).2.nalu =
      byteAt s.inBuffer ((getNextNalu s).2.nalu.dataOff) := by
  unfold getNextNalu at h ⊢
  cases hn : s.nextNaluPtr with
  | none =>
    rw [hn] at h
    exact absurd (show (0 : Int) = 1 from h) (by omega)
  | some cur =>
    rw [hn] at h
    dsimp only at h ⊢
    split_ifs at h ⊢
    · exact nextNaluAt_hdrByte s cur 3
    · exact nextNaluAt_hdrByte s cur 4
    · exact absurd (show (-1 : Int) = 1 from h) (by omega)

lemma getNextNalu_ret_pos_len (s : PackerState) (h : ¬ (getNextNalu s).1 ≤ 0) :
    1 ≤ (getNextNalu s).2.nalu.len := by
  unfold getNextNalu at h ⊢
  cases hn : s.nextNaluPtr with
  | none =>
    rw [hn] at h
    exact absurd (show (0 : Int) ≤ 0 from le_refl 0) h
  | some cur =>
    rw [hn] at h
    dsimp only at h ⊢
    split_ifs at h ⊢
    · exact nextNaluAt_len_pos s cur 3
    · exact nextNaluAt_len_pos s cur 4
    · exact absurd (show (-1 : Int) ≤ 0 from by omega) h

lemma sliceBytes_flatten (buf : Nat → Nat) (max a : Nat) :
    ∀ c : Nat,
      (((List.range c).map fun j => sliceBytes buf (a + j * max) max)).flatten =
        sliceBytes buf a (c * max) := by
  intro c
  induction c with
  | zero => simp [sliceBytes]
  | succ c ih =>
    rw [List.range_succ]
    simp only [List.map_append, List.flatten_append, List.map_cons, List.map_nil,
      List.flatten_cons, List.flatten_nil, List.append_nil]
    rw [ih, sliceBytes_append, Nat.succ_mul]


/-! ### Claim C1 -/

lemma payloadLen_mk2 (m : Bool) (seq ts c fi fh : Nat) (rest : List Nat) :
    ((rtpHeaderBytes m seq ts c ++ fi :: fh :: rest).drop 14).length = rest.length := by
  rw [drop14_mk]

def fragBuf : Nat → Nat := fun i => [0, 0, 1, 65, 1, 2, 3, 4, 5].getD i 0

def fragP : RTPPackerParams := ⟨2, 7⟩

def fragS : PackerState := put fragBuf 9 (initState 0)

/-- Claim C1, as frozen, is false on the code: for the NALU of length 6 with
maximum payload length 2 (so `r = 0`, `q = 3`) the spec text demands three
fragments of exactly 2 payload bytes each, but the emitted fragments carry
2, 2 and 1 payload bytes (the final fragment carries `max - 1`, not `max`). -/
theorem C1_counterexample :
    (getNextNalu fragS).1 = 1 ∧
    (getNextNalu fragS).2.nalu.len = 6 ∧
    fragP.maxPacketLength = 2 ∧
    6 % 2 = 0 ∧
    ((fragRun fragP 0 [0, 0, 0] fragS).1.map fun b => (b.drop 14).length) = [2, 2, 1] ∧
    [2, 2, 1] ≠ List.replicate 3 2 := by
  decide

/-- Claim C1 (amended): for a NALU selected by `get` whose length `len`
(header byte included) exceeds the configured maximum `max ≥ 1`, with
`q = len / max` and `r = len % max`, and `max + 14` within the scratch
capacity: the NALU is emitted as exactly `q` FU-A fragments when `r = 0`
and `q + 1` fragments when `r ≠ 0`; every fragment before the last carries
exactly `max` payload bytes, and the final fragment carries `max - 1`
payload bytes when `r = 0` and `r - 1` payload bytes when `r ≠ 0` (one less
than the spec text states, because the stored last-fragment size counts the
stripped NAL header byte). -/
theorem C1_amended (p : RTPPackerParams) (now : Nat) (nows : List Nat) (s : PackerState)
    (hA : s.inBufferComplete = false) (hB : s.naluComplete = true)
    (hC : (getNextNalu s).1 = 1) (hM : 1 ≤ p.maxPacketLength)
    (hLen : p.maxPacketLength < (getNextNalu s).2.nalu.len)
    (hCap : p.maxPacketLength + 14 ≤ 10240)
    (hFuel : (getNextNalu s).2.nalu.len ≤ nows.length) :
    ((fragRun p now nows s).1.map fun b => (b.drop 14).length) =
      List.replicate
        ((if (getNextNalu s).2.nalu.len % p.maxPacketLength = 0
          then (getNextNalu s).2.nalu.len / p.maxPacketLength
          else (getNextNalu s).2.nalu.len / p.maxPacketLength + 1) - 1)
        p.maxPacketLength ++
      [(if (getNextNalu s).2.nalu.len % p.maxPacketLength = 0
        then p.maxPacketLength
        else (getNextNalu s).2.nalu.len % p.maxPacketLength) - 1] ∧
    (fragRun p now nows s).2.naluComplete = true := by
  have hc1 := fragCount_pos (getNextNalu s).2.nalu.len p.maxPacketLength hM hLen
  rw [fragRun_spec p now nows s hA hB hC hM hLen hCap hFuel]
  refine ⟨?_, rfl⟩
  simp only [List.map_cons, List.map_append, List.map_map, Function.comp_def,
    payloadLen_mk2, sliceBytes_length]
  rw [show (if (getNextNalu s).2.nalu.len % p.maxPacketLength = 0
          then (getNextNalu s).2.nalu.len / p.maxPacketLength
          else (getNextNalu s).2.nalu.len / p.maxPacketLength + 1) - 1 =
        fragCount (getNextNalu s).2.nalu.len p.maxPacketLength from by
      unfold fragCount
      split_ifs
      · rfl
      · exact Nat.add_sub_cancel _ _]
  rw [show (if (getNextNalu s).2.nalu.len % p.maxPacketLength = 0
        then p.maxPacketLength
        else (getNextNalu s).2.nalu.len % p.maxPacketLength) =
      lastSize (getNextNalu s).2.nalu.len p.maxPacketLength from rfl]
  rw [show fragCount (getNextNalu s).2.nalu.len p.maxPacketLength =
      (fragCount (getNextNalu s).2.nalu.len p.maxPacketLength - 1) + 1 from by omega]
  rw [List.replicate_succ]
  simp [List.length_range]

/-- Claim C1 (amended) at a concrete input: NALU length 6, maximum 2. -/
theorem C1_amended_witness :
    (fragS.inBufferComplete = false ∧ fragS.naluComplete = true ∧
      (getNextNalu fragS).1 = 1 ∧ 1 ≤ fragP.maxPacketLength ∧
      fragP.maxPacketLength < (getNextNalu fragS).2.nalu.len ∧
      fragP.maxPacketLength + 14 ≤ 10240 ∧
      (getNextNalu fragS).2.nalu.len ≤ ([0, 0, 0, 0, 0, 0] : List Nat).length) ∧
    (((fragRun fragP 0 [0, 0, 0, 0, 0, 0] fragS).1.map fun b => (b.drop 14).length) =
      List.replicate
        ((if (getNextNalu fragS).2.nalu.len % fragP.maxPacketLength = 0
          then (getNextNalu fragS).2.nalu.len / fragP.maxPacketLength
          else (getNextNalu fragS).2.nalu.len / fragP.maxPacketLength + 1) - 1)
        fragP.maxPacketLength ++
      [(if (getNextNalu fragS).2.nalu.len % fragP.maxPacketLength = 0
        then fragP.maxPacketLength
        else (getNextNalu fragS).2.nalu.len % fragP.maxPacketLength) - 1] ∧
    (fragRun fragP 0 [0, 0, 0, 0, 0, 0] fragS).2.naluComplete = true) :=
  ⟨⟨rfl, rfl, by decide, by decide, by decide, by decide, by decide⟩,
    C1_amended fragP 0 [0, 0, 0, 0, 0, 0] fragS rfl rfl (by decide) (by decide)
      (by decide) (by decide) (by decide)⟩


/-! ### Claim C2 -/

/-- Claim C2: for a NALU that `get` fragments, concatenating the payload
slices of all its fragments (each packet minus its 12-byte RTP header and
2 FU bytes) in emission order reproduces exactly bytes `1 .. len-1` of the
NALU, i.e. the NALU payload with its 1-byte NAL header stripped. -/
theorem C2_concat (p : RTPPackerParams) (now : Nat) (nows : List Nat) (s : PackerState)
    (hA : s.inBufferComplete = false) (hB : s.naluComplete = true)
    (hC : (getNextNalu s).1 = 1) (hM : 1 ≤ p.maxPacketLength)
    (hLen : p.maxPacketLength < (getNextNalu s).2.nalu.len)
    (hCap : p.maxPacketLength + 14 ≤ 10240)
    (hFuel : (getNextNalu s).2.nalu.len ≤ nows.length) :
    ((fragRun p now nows s).1.map fun b => b.drop 14).flatten =
      sliceBytes s.inBuffer ((getNextNalu s).2.nalu.dataOff + 1)
        ((getNextNalu s).2.nalu.len - 1) := by
  have hpre := getNextNalu_preserve s
  have hc1 := fragCount_pos (getNextNalu s).2.nalu.len p.maxPacketLength hM hLen
  have hl1 := lastSize_pos (getNextNalu s).2.nalu.len p.maxPacketLength hM
  have hmul := fragCount_mul_add (getNextNalu s).2.nalu.len p.maxPacketLength hM hLen
  rw [fragRun_spec p now nows s hA hB hC hM hLen hCap hFuel]
  simp only [List.map_cons, List.map_append, List.map_map, Function.comp_def,
    drop14_mk, List.flatten_cons, List.flatten_append, List.flatten_nil,
    List.map_nil, List.append_nil]
  rw [List.map_congr_left (fun j hj => by
    rw [show (getNextNalu s).2.nalu.dataOff + 1 + (1 + j) * p.maxPacketLength =
        ((getNextNalu s).2.nalu.dataOff + 1 + p.maxPacketLength) + j * p.maxPacketLength
      from by ring] :
    ∀ j ∈ List.range (fragCount (getNextNalu s).2.nalu.len p.maxPacketLength - 1),
      sliceBytes (getNextNalu s).2.inBuffer
        ((getNextNalu s).2.nalu.dataOff + 1 + (1 + j) * p.maxPacketLength)
        p.maxPacketLength =
      sliceBytes (getNextNalu s).2.inBuffer
        (((getNextNalu s).2.nalu.dataOff + 1 + p.maxPacketLength) + j * p.maxPacketLength)
        p.maxPacketLength)]
  rw [sliceBytes_flatten (getNextNalu s).2.inBuffer p.maxPacketLength
    ((getNextNalu s).2.nalu.dataOff + 1 + p.maxPacketLength)
    (fragCount (getNextNalu s).2.nalu.len p.maxPacketLength - 1)]
  have hBA : fragCount (getNextNalu s).2.nalu.len p.maxPacketLength * p.maxPacketLength =
      (fragCount (getNextNalu s).2.nalu.len p.maxPacketLength - 1) * p.maxPacketLength +
        p.maxPacketLength := by
    conv_lhs => rw [show fragCount (getNextNalu s).2.nalu.len p.maxPacketLength =
      fragCount (getNextNalu s).2.nalu.len p.maxPacketLength - 1 + 1 from by omega]
    rw [Nat.succ_mul]
  rw [show (getNextNalu s).2.nalu.dataOff + 1 +
      fragCount (getNextNalu s).2.nalu.len p.maxPacketLength * p.maxPacketLength =
    ((getNextNalu s).2.nalu.dataOff + 1 + p.maxPacketLength) +
      (fragCount (getNextNalu s).2.nalu.len p.maxPacketLength - 1) * p.maxPacketLength
    from by omega]
  rw [sliceBytes_append]
  rw [sliceBytes_append]
  rw [hpre.2.1]
  congr 1
  omega

/-- Claim C2 at a concrete input: NALU length 6, maximum 2; the three
fragment payloads concatenate back to the five payload bytes. -/
theorem C2_concat_witness :
    (fragS.inBufferComplete = false ∧ fragS.naluComplete = true ∧
      (getNextNalu fragS).1 = 1 ∧ 1 ≤ fragP.maxPacketLength ∧
      fragP.maxPacketLength < (getNextNalu fragS).2.nalu.len ∧
      fragP.maxPacketLength + 14 ≤ 10240 ∧
      (getNextNalu fragS).2.nalu.len ≤ ([0, 0, 0, 0, 0, 0] : List Nat).length) ∧
    ((fragRun fragP 0 [0, 0, 0, 0, 0, 0] fragS).1.map fun b => b.drop 14).flatten =
      sliceBytes fragS.inBuffer ((getNextNalu fragS).2.nalu.dataOff + 1)
        ((getNextNalu fragS).2.nalu.len - 1) :=
  ⟨⟨rfl, rfl, by decide, by decide, by decide, by decide, by decide⟩,
    C2_concat fragP 0 [0, 0, 0, 0, 0, 0] fragS rfl rfl (by decide) (by decide)
      (by decide) (by decide) (by decide)⟩


/-! ### Claim C3 -/

/-- Claim C3, as frozen, is false on the code: with maximum payload length
20000, the selected NALU of length 10229 satisfies `len <= max`, yet `get`
raises the BufferOverflow exception (computed size 10241 > 10240) and emits
no packet at all. -/
theorem C3_counterexample :
    (getNextNalu sC3).1 = 1 ∧
    (getNextNalu sC3).2.nalu.len = 10229 ∧
    (getNextNalu sC3).2.nalu.len ≤ pC3.maxPacketLength ∧
    isOverflowB (get pC3 0 sC3) = true := by
  refine ⟨by rw [nnC3], by rw [nnC3]; rfl, by rw [nnC3]; decide, ?_⟩
  rw [get_whole_ovf pC3 0 sC3 rfl rfl (by rw [nnC3])
    (by rw [nnC3]; decide) (by rw [nnC3]; decide)]
  rfl

/-- Claim C3 (amended): for a NALU with `len <= max` whose whole packet also
fits the scratch buffer (`len + 12 <= 10240`), `get` emits exactly one
packet: marker bit 1, byte 12 equal to the original NAL header byte, payload
equal to NALU bytes `1 .. len-1`, total size `len + 12`; completing the NALU
so that the next call moves on.  (When `len + 12` exceeds 10240 the call
raises BufferOverflow instead — see the counterexample.) -/
theorem C3_amended (p : RTPPackerParams) (now : Nat) (s : PackerState)
    (hA : s.inBufferComplete = false) (hB : s.naluComplete = true)
    (hC : (getNextNalu s).1 = 1)
    (hLen : (getNextNalu s).2.nalu.len ≤ p.maxPacketLength)
    (hCap : (getNextNalu s).2.nalu.len + 12 ≤ 10240) :
    ∃ b s2, get p now s = GetResult.packet b s2 ∧
      markerOf b = 1 ∧
      b.getD 12 0 = byteAt s.inBuffer (getNextNalu s).2.nalu.dataOff ∧
      b.drop 13 = sliceBytes s.inBuffer ((getNextNalu s).2.nalu.dataOff + 1)
        ((getNextNalu s).2.nalu.len - 1) ∧
      b.length = (getNextNalu s).2.nalu.len + 12 ∧
      s2.naluComplete = true := by
  have hpre := getNextNalu_preserve s
  have hlp := getNextNalu_len_pos s hC
  refine ⟨_, _, get_whole p now s hA hB hC hLen hCap, ?_, ?_, ?_, ?_, rfl⟩
  · rw [markerOf_mk]
    rfl
  · rw [byte12_mk, getNextNalu_hdrByte s hC]
  · rw [drop13_mk, hpre.2.1]
  · rw [length_mk1, sliceBytes_length]
    omega

def waBuf : Nat → Nat := fun i => [0, 0, 0, 1, 101, 1, 2, 3, 4, 5, 6, 7, 8, 9].getD i 0

def waP : RTPPackerParams := ⟨1400, 9⟩

def waS : PackerState := put waBuf 14 (initState 0)

/-- Claim C3 (amended) at a concrete input: a 4-byte start code followed by
a 10-byte NALU, maximum 1400: one 22-byte packet with marker 1. -/
theorem C3_amended_witness :
    (waS.inBufferComplete = false ∧ waS.naluComplete = true ∧
      (getNextNalu waS).1 = 1 ∧
      (getNextNalu waS).2.nalu.len ≤ waP.maxPacketLength ∧
      (getNextNalu waS).2.nalu.len + 12 ≤ 10240) ∧
    (∃ b s2, get waP 0 waS = GetResult.packet b s2 ∧
      markerOf b = 1 ∧
      b.getD 12 0 = byteAt waS.inBuffer (getNextNalu waS).2.nalu.dataOff ∧
      b.drop 13 = sliceBytes waS.inBuffer ((getNextNalu waS).2.nalu.dataOff + 1)
        ((getNextNalu waS).2.nalu.len - 1) ∧
      b.length = (getNextNalu waS).2.nalu.len + 12 ∧
      s2.naluComplete = true) :=
  ⟨⟨rfl, rfl, by decide, by decide, by decide⟩,
    C3_amended waP 0 waS rfl rfl (by decide) (by decide) (by decide)⟩


/-! ### Claim C4 -/

/-- Claim C4, as frozen, is false on the code: in the trace `opsC4` a
BufferOverflow-raising `get` sits between two emitted packets; the failing
call still consumed a sequence number (it is assigned before the capacity
check), so the two emitted packets carry sequence numbers 0 and 2 — not
consecutive mod 65536. -/
theorem C4_counterexample :
    ¬ List.Chain' (fun a b => extractSeq b = (extractSeq a + 1) % 65536)
        (runOps pC4 (initState 0) opsC4).packets := by
  have hrun : (runOps pC4 (initState 0) opsC4).packets = [pktA, pktC] := by
    rw [show opsC4 = Op.putOp bufC3 5 :: Op.getOp 0 :: Op.putOp bufB 10242 ::
        Op.getOp 0 :: Op.getOp 0 :: [] from rfl]
    rw [runOps_put]
    rw [show put bufC3 5 (initState 0) = sA from rfl]
    rw [runOps_get_packet pC4 0 sA pktA stA _ hget1]
    dsimp only
    rw [runOps_put]
    rw [show put bufB 10242 stA = sB from rfl]
    rw [runOps_get_overflow pC4 0 sB stB2 _ hget2]
    dsimp only
    rw [runOps_get_packet pC4 0 stB2 pktC stC2 _ hget3]
    rfl
  rw [hrun]
  intro hch
  rw [List.chain'_pair] at hch
  rw [show extractSeq pktA = 0 from rfl, show extractSeq pktC = 2 from rfl] at hch
  exact absurd hch (by decide)

/-- Claim C4 (amended): in any run of `put`/`get` operations from a freshly
constructed packetizer in which no `get` call raises BufferOverflow, the RTP
sequence numbers of consecutively emitted packets increase by exactly 1
modulo 65536, across `put` calls included; and `put` never changes the
sequence counter.  (A `get` call that raises BufferOverflow still advances
the counter, so packets around a failed call differ by 2 — see the
counterexample.) -/
theorem C4_amended (p : RTPPackerParams) (startMs : Nat) (ops : List Op)
    (hov : (runOps p (initState startMs) ops).ovf = false) :
    List.Chain' (fun a b => extractSeq b = (extractSeq a + 1) % 65536)
      (runOps p (initState startMs) ops).packets ∧
    (∀ (d : Nat → Nat) (n : Nat) (s : PackerState), (put d n s).seqNum = s.seqNum) := by
  constructor
  · have h := runOps_seq_run p ops (initState startMs) hov
    have hc := mkSeqs_chain (initState startMs).seqNum
      (runOps p (initState startMs) ops).packets.length
    rw [← h] at hc
    exact (List.chain'_map extractSeq).1 hc
  · intro d n s
    rfl

def seqBuf : Nat → Nat := fun i => [0, 0, 1, 65, 0, 0, 1, 66].getD i 0

def seqOps : List Op :=
  [Op.putOp seqBuf 8, Op.getOp 0, Op.getOp 0, Op.getOp 0,
   Op.putOp seqBuf 8, Op.getOp 5, Op.getOp 5]

/-- Claim C4 (amended) at a concrete input: two NALUs drained twice across
two `put` calls, four packets, no overflow. -/
theorem C4_amended_witness :
    (runOps ⟨1400, 9⟩ (initState 0) seqOps).ovf = false ∧
    (List.Chain' (fun a b => extractSeq b = (extractSeq a + 1) % 65536)
      (runOps ⟨1400, 9⟩ (initState 0) seqOps).packets ∧
    (∀ (d : Nat → Nat) (n : Nat) (s : PackerState), (put d n s).seqNum = s.seqNum)) :=
  ⟨by decide, C4_amended ⟨1400, 9⟩ 0 seqOps (by decide)⟩


/-! ### Claims C5 and C6 -/

lemma markerOf_mk1 (seq ts c : Nat) (rest : List Nat) :
    markerOf (rtpHeaderBytes true seq ts c ++ rest) = 1 := by
  rw [markerOf_mk]
  rfl

lemma markerOf_mk0 (seq ts c : Nat) (rest : List Nat) :
    markerOf (rtpHeaderBytes false seq ts c ++ rest) = 0 := by
  rw [markerOf_mk]
  rfl

theorem C5_marker_bits (p : RTPPackerParams) (now : Nat) (nows : List Nat)
    (s : PackerState)
    (hA : s.inBufferComplete = false) (hB : s.naluComplete = true)
    (hC : (getNextNalu s).1 = 1) (hM : 1 ≤ p.maxPacketLength) :
    ((getNextNalu s).2.nalu.len ≤ p.maxPacketLength →
      (getNextNalu s).2.nalu.len + 12 ≤ 10240 →
      ((fragRun p now nows s).1.map markerOf) = [1]) ∧
    (p.maxPacketLength < (getNextNalu s).2.nalu.len →
      p.maxPacketLength + 14 ≤ 10240 →
      (getNextNalu s).2.nalu.len ≤ nows.length →
      ((fragRun p now nows s).1.map markerOf) =
        List.replicate ((fragRun p now nows s).1.length - 1) 0 ++ [1] ∧
      ((fragRun p now nows s).1.map sBitOf) =
        1 :: List.replicate ((fragRun p now nows s).1.length - 1) 0 ∧
      ((fragRun p now nows s).1.map eBitOf) =
        List.replicate ((fragRun p now nows s).1.length - 1) 0 ++ [1]) := by
  constructor
  · intro hLen hCap
    unfold fragRun
    rw [get_whole p now s hA hB hC hLen hCap]
    dsimp only
    rw [emitFrags_done p _ nows rfl]
    simp only [List.map_cons, List.map_nil, markerOf_mk1]
  · intro hLen hCap hFuel
    have ht := getNextNalu_type_lt s hC
    have hc1 := fragCount_pos (getNextNalu s).2.nalu.len p.maxPacketLength hM hLen
    have h1 : (128 + (getNextNalu s).2.nalu.nalUnitType) / 128 = 1 := by omega
    have h2 : (getNextNalu s).2.nalu.nalUnitType / 128 = 0 := by omega
    have h3 : (64 + (getNextNalu s).2.nalu.nalUnitType) / 128 = 0 := by omega
    have h4 : (128 + (getNextNalu s).2.nalu.nalUnitType) / 64 % 2 = 0 := by omega
    have h5 : (getNextNalu s).2.nalu.nalUnitType / 64 % 2 = 0 := by omega
    have h6 : (64 + (getNextNalu s).2.nalu.nalUnitType) / 64 % 2 = 1 := by omega
    rw [fragRun_spec p now nows s hA hB hC hM hLen hCap hFuel]
    simp only [List.map_cons, List.map_append, List.map_map, Function.comp_def,
      markerOf_mk1, markerOf_mk0, sBitOf_mk, eBitOf_mk, h1, h2, h3, h4, h5, h6,
      List.length_cons, List.length_append, List.length_map, List.length_range]
    simp only [List.map_nil, List.length_nil]
    rw [show fragCount (getNextNalu s).2.nalu.len p.maxPacketLength - 1 + (0 + 1) + 1 - 1 =
        fragCount (getNextNalu s).2.nalu.len p.maxPacketLength - 1 + 1 from by omega]
    refine ⟨?_, ?_, ?_⟩
    · rw [List.map_const', List.length_range, List.replicate_succ, List.cons_append]
    · rw [List.map_const', List.length_range, List.replicate_succ']
    · rw [List.map_const', List.length_range, List.replicate_succ, List.cons_append]


/-- Claim C5 at a concrete input: NALU length 6, maximum 2, three fragments
with marker/S/E patterns [0,0,1] / [1,0,0] / [0,0,1]. -/
theorem C5_marker_bits_witness :
    (fragS.inBufferComplete = false ∧ fragS.naluComplete = true ∧
      (getNextNalu fragS).1 = 1 ∧ 1 ≤ fragP.maxPacketLength) ∧
    (((getNextNalu fragS).2.nalu.len ≤ fragP.maxPacketLength →
      (getNextNalu fragS).2.nalu.len + 12 ≤ 10240 →
      ((fragRun fragP 0 [0, 0, 0, 0, 0, 0] fragS).1.map markerOf) = [1]) ∧
    (fragP.maxPacketLength < (getNextNalu fragS).2.nalu.len →
      fragP.maxPacketLength + 14 ≤ 10240 →
      (getNextNalu fragS).2.nalu.len ≤ ([0, 0, 0, 0, 0, 0] : List Nat).length →
      ((fragRun fragP 0 [0, 0, 0, 0, 0, 0] fragS).1.map markerOf) =
        List.replicate ((fragRun fragP 0 [0, 0, 0, 0, 0, 0] fragS).1.length - 1) 0 ++ [1] ∧
      ((fragRun fragP 0 [0, 0, 0, 0, 0, 0] fragS).1.map sBitOf) =
        1 :: List.replicate ((fragRun fragP 0 [0, 0, 0, 0, 0, 0] fragS).1.length - 1) 0 ∧
      ((fragRun fragP 0 [0, 0, 0, 0, 0, 0] fragS).1.map eBitOf) =
        List.replicate ((fragRun fragP 0 [0, 0, 0, 0, 0, 0] fragS).1.length - 1) 0 ++ [1])) :=
  ⟨⟨rfl, rfl, by decide, by decide⟩,
    C5_marker_bits fragP 0 [0, 0, 0, 0, 0, 0] fragS rfl rfl (by decide) (by decide)⟩

/-- Claim C6: every packet emitted for one fragmented NALU carries the same
RTP timestamp field (bytes 4-7): the value computed from the clock when the
NALU was selected, reused unchanged by every subsequent fragment call
whatever the clock reads then (the `nows` list is arbitrary). -/
theorem C6_timestamp (p : RTPPackerParams) (now : Nat) (nows : List Nat)
    (s : PackerState)
    (hA : s.inBufferComplete = false) (hB : s.naluComplete = true)
    (hC : (getNextNalu s).1 = 1) (hM : 1 ≤ p.maxPacketLength)
    (hLen : p.maxPacketLength < (getNextNalu s).2.nalu.len)
    (hCap : p.maxPacketLength + 14 ≤ 10240)
    (hFuel : (getNextNalu s).2.nalu.len ≤ nows.length) :
    ((fragRun p now nows s).1.map tsBytesOf) =
      List.replicate (fragRun p now nows s).1.length
        [tsFor now s.tsStartMillisec / 16777216 % 256,
         tsFor now s.tsStartMillisec / 65536 % 256,
         tsFor now s.tsStartMillisec / 256 % 256,
         tsFor now s.tsStartMillisec % 256] := by
  have hpre := getNextNalu_preserve s
  have hc1 := fragCount_pos (getNextNalu s).2.nalu.len p.maxPacketLength hM hLen
  rw [fragRun_spec p now nows s hA hB hC hM hLen hCap hFuel]
  rw [hpre.2.2.2.2.2.1]
  simp only [List.map_cons, List.map_append, List.map_map, Function.comp_def,
    tsBytesOf_mk, List.map_nil, List.length_cons, List.length_append,
    List.length_map, List.length_range, List.length_nil]
  rw [List.map_const', List.length_range]
  rw [show fragCount (getNextNalu s).2.nalu.len p.maxPacketLength - 1 + (0 + 1) + 1 =
      (fragCount (getNextNalu s).2.nalu.len p.maxPacketLength - 1 + 1) + 1 from by omega]
  rw [List.replicate_succ, List.replicate_succ']

/-- Claim C6 at a concrete input: three fragments, clock values 5000, 9000,
12345 during the follow-up calls, all four timestamp bytes identical. -/
theorem C6_timestamp_witness :
    (fragS.inBufferComplete = false ∧ fragS.naluComplete = true ∧
      (getNextNalu fragS).1 = 1 ∧ 1 ≤ fragP.maxPacketLength ∧
      fragP.maxPacketLength < (getNextNalu fragS).2.nalu.len ∧
      fragP.maxPacketLength + 14 ≤ 10240 ∧
      (getNextNalu fragS).2.nalu.len ≤ ([5000, 9000, 12345, 1, 2, 3] : List Nat).length) ∧
    ((fragRun fragP 1000 [5000, 9000, 12345, 1, 2, 3] fragS).1.map tsBytesOf) =
      List.replicate (fragRun fragP 1000 [5000, 9000, 12345, 1, 2, 3] fragS).1.length
        [tsFor 1000 fragS.tsStartMillisec / 16777216 % 256,
         tsFor 1000 fragS.tsStartMillisec / 65536 % 256,
         tsFor 1000 fragS.tsStartMillisec / 256 % 256,
         tsFor 1000 fragS.tsStartMillisec % 256] :=
  ⟨⟨rfl, rfl, by decide, by decide, by decide, by decide, by decide⟩,
    C6_timestamp fragP 1000 [5000, 9000, 12345, 1, 2, 3] fragS rfl rfl (by decide)
      (by decide) (by decide) (by decide) (by decide)⟩

/-! ### Claim C7 -/

/-- Claim C7: the call either raises BufferOverflow — exactly when the
packet size it computed (`getOutSize`) exceeds the 10 KiB scratch capacity —
and then returns no packet, or any packet it does return is fully built:
its byte count equals the computed size and fits the scratch buffer.  No
truncated packet is ever returned. -/
theorem C7_overflow (p : RTPPackerParams) (now : Nat) (s : PackerState) (n : Nat)
    (hsz : getOutSize p s = some n) :
    (10240 < n → ∃ s2, get p now s = GetResult.overflow s2) ∧
    (∀ b s2, get p now s = GetResult.packet b s2 → b.length = n ∧ n ≤ 10240) := by
  unfold getOutSize at hsz
  cases h1 : s.inBufferComplete with
  | true =>
    rw [if_pos h1] at hsz
    exact absurd hsz (by simp)
  | false =>
    rw [if_neg (by rw [h1]; simp)] at hsz
    cases h2 : s.naluComplete with
    | true =>
      rw [if_pos h2] at hsz
      by_cases h3 : (getNextNalu s).1 ≤ 0
      · rw [if_pos h3] at hsz
        exact absurd hsz (by simp)
      · rw [if_neg h3] at hsz
        have hlp := getNextNalu_ret_pos_len s h3
        have h3e : (getNextNalu s).1 = 1 := by
          unfold getNextNalu at h3 ⊢
          cases hn : s.nextNaluPtr with
          | none =>
            rw [hn] at h3
            exact absurd (show (0 : Int) ≤ 0 from le_refl 0) h3
          | some cur =>
            rw [hn] at h3
            dsimp only at h3 ⊢
            split_ifs at h3 ⊢
            · rfl
            · rfl
            · exact absurd (show (-1 : Int) ≤ 0 from by omega) h3
        by_cases h4 : (getNextNalu s).2.nalu.len ≤ p.maxPacketLength
        · rw [if_pos h4] at hsz
          obtain rfl := Option.some.inj hsz
          by_cases h5 : 10240 < (getNextNalu s).2.nalu.len + 12
          · rw [get_whole_ovf p now s h1 h2 h3e h4 h5]
            exact ⟨fun _ => ⟨_, rfl⟩, fun b s2 hpk => GetResult.noConfusion hpk⟩
          · rw [get_whole p now s h1 h2 h3e h4 (by omega)]
            refine ⟨fun hov => absurd hov h5, fun b s2 hpk => ?_⟩
            obtain ⟨hb, hs⟩ := GetResult.packet.inj hpk
            subst hb
            rw [length_mk1, sliceBytes_length]
            omega
        · rw [if_neg h4] at hsz
          obtain rfl := Option.some.inj hsz
          by_cases h5 : 10240 < p.maxPacketLength + 14
          · rw [get_frag_first_ovf p now s h1 h2 h3e (by omega) h5]
            exact ⟨fun _ => ⟨_, rfl⟩, fun b s2 hpk => GetResult.noConfusion hpk⟩
          · rw [get_frag_first p now s h1 h2 h3e (by omega) (by omega)]
            refine ⟨fun hov => absurd hov h5, fun b s2 hpk => ?_⟩
            obtain ⟨hb, hs⟩ := GetResult.packet.inj hpk
            subst hb
            rw [length_mk2, sliceBytes_length]
            omega
    | false =>
      rw [if_neg (by rw [h2]; simp)] at hsz
      by_cases h7 : s.fuIndex = s.fuCounter
      · rw [if_pos h7] at hsz
        obtain rfl := Option.some.inj hsz
        by_cases h8 : 10240 < s.lastFuSize - 1 + 14
        · rw [get_frag_last_ovf p now s h1 h2 h7 h8]
          exact ⟨fun _ => ⟨_, rfl⟩, fun b s2 hpk => GetResult.noConfusion hpk⟩
        · rw [get_frag_last p now s h1 h2 h7 (by omega)]
          refine ⟨fun hov => absurd hov h8, fun b s2 hpk => ?_⟩
          obtain ⟨hb, hs⟩ := GetResult.packet.inj hpk
          subst hb
          rw [length_mk2, sliceBytes_length]
          omega
      · rw [if_neg h7] at hsz
        obtain rfl := Option.some.inj hsz
        by_cases h8 : 10240 < p.maxPacketLength + 14
        · rw [get_frag_mid_ovf p now s h1 h2 h7 h8]
          exact ⟨fun _ => ⟨_, rfl⟩, fun b s2 hpk => GetResult.noConfusion hpk⟩
        · rw [get_frag_mid p now s h1 h2 h7 (by omega)]
          refine ⟨fun hov => absurd hov h8, fun b s2 hpk => ?_⟩
          obtain ⟨hb, hs⟩ := GetResult.packet.inj hpk
          subst hb
          rw [length_mk2, sliceBytes_length]
          omega

/-- Claim C7 at a concrete input: the first FU-A fragment of the length-6
NALU with maximum 2 computes size 16, fits, and the returned packet has
exactly 16 bytes. -/
theorem C7_overflow_witness :
    getOutSize fragP fragS = some 16 ∧
    ((10240 < 16 → ∃ s2, get fragP 0 fragS = GetResult.overflow s2) ∧
    (∀ b s2, get fragP 0 fragS = GetResult.packet b s2 → b.length = 16 ∧ 16 ≤ 10240)) :=
  ⟨by decide, C7_overflow fragP 0 fragS 16 (by decide)⟩


/-- Claim C8: when neither a 3-byte nor a 4-byte start code sits at the
scan position, `get` raises no error: it marks the buffer drained and
returns nothing, exactly like normal exhaustion, and every further `get`
returns nothing as well (until the next `put` resets the drained flag). -/
theorem C8_malformed (p : RTPPackerParams) (now : Nat) (s : PackerState) (cur : Nat)
    (hA : s.inBufferComplete = false) (hB : s.naluComplete = true)
    (hP : s.nextNaluPtr = some cur)
    (h3 : isStartCode3 s.inBuffer cur = false)
    (h4 : isStartCode4 s.inBuffer cur = false) :
    get p now s = GetResult.exhausted { s with inBufferComplete := true } ∧
    (∀ now2, get p now2 { s with inBufferComplete := true } =
      GetResult.exhausted { s with inBufferComplete := true }) := by
  have hnn : getNextNalu s = (-1, s) := by
    unfold getNextNalu
    rw [hP]
    dsimp only
    rw [h3, h4]
    simp
  constructor
  · rw [get_no_nalu p now s hA hB (by rw [hnn]; exact by omega)]
    rw [hnn]
  · intro now2
    exact get_complete p now2 _ rfl

def malBuf : Nat → Nat := fun i => [9, 9, 9].getD i 0

def malS : PackerState := put malBuf 3 (initState 0)

/-- Claim C8 at a concrete input: a buffer of three bytes `9 9 9` carries no
start code; `get` drains it quietly. -/
theorem C8_malformed_witness :
    (malS.inBufferComplete = false ∧ malS.naluComplete = true ∧
      malS.nextNaluPtr = some 0 ∧
      isStartCode3 malS.inBuffer 0 = false ∧
      isStartCode4 malS.inBuffer 0 = false) ∧
    (get ⟨1400, 9⟩ 0 malS = GetResult.exhausted { malS with inBufferComplete := true } ∧
    (∀ now2, get ⟨1400, 9⟩ now2 { malS with inBufferComplete := true } =
      GetResult.exhausted { malS with inBufferComplete := true })) :=
  ⟨⟨rfl, rfl, rfl, by decide, by decide⟩,
    C8_malformed ⟨1400, 9⟩ 0 malS 0 rfl rfl rfl (by decide) (by decide)⟩

/-- Claim C9: calling `get` on a freshly constructed packetizer, before any
`put`, returns nothing rather than raising an error, leaves the sequence
number unchanged, and every further `get` also returns nothing. -/
theorem C9_fresh (p : RTPPackerParams) (now startMs : Nat) :
    get p now (initState startMs) =
      GetResult.exhausted { initState startMs with inBufferComplete := true } ∧
    ({ initState startMs with inBufferComplete := true } : PackerState).seqNum =
      (initState startMs).seqNum ∧
    (∀ now2, get p now2 ({ initState startMs with inBufferComplete := true } : PackerState) =
      GetResult.exhausted { initState startMs with inBufferComplete := true }) := by
  refine ⟨?_, rfl, fun now2 => get_complete p now2 _ rfl⟩
  rw [get_no_nalu p now (initState startMs) rfl rfl (by exact le_refl 0)]
  rfl

/-- The state a `get` outcome leaves behind, whichever constructor it is. -/
def resState : GetResult → PackerState
  | GetResult.packet _ s => s
  | GetResult.exhausted s => s
  | GetResult.overflow s => s

lemma Inv_initState (p : RTPPackerParams) (ms : Nat) : Inv p (initState ms) := by
  intro h
  simp [initState] at h

lemma Inv_put (p : RTPPackerParams) (buf : Nat → Nat) (n : Nat) (s : PackerState) :
    Inv p (put buf n s) := by
  intro h
  simp [put] at h

lemma Inv_get (p : RTPPackerParams) (now : Nat) (s : PackerState)
    (hM : 1 ≤ p.maxPacketLength) (hs : Inv p s) : Inv p (resState (get p now s)) := by
  have hpres := getNextNalu_preserve s
  cases h1 : s.inBufferComplete with
  | true =>
    rw [get_complete p now s h1]
    exact hs
  | false =>
    cases h2 : s.naluComplete with
    | true =>
      by_cases h3 : (getNextNalu s).1 ≤ 0
      · rw [get_no_nalu p now s h1 h2 h3]
        intro h
        replace h : (getNextNalu s).2.naluComplete = false := h
        rw [hpres.2.2.2.2.1, h2] at h
        exact absurd h (by simp [resState])
      · have h3e : (getNextNalu s).1 = 1 := by
          unfold getNextNalu at h3 ⊢
          cases hn : s.nextNaluPtr with
          | none =>
            rw [hn] at h3
            exact absurd (show (0 : Int) ≤ 0 from le_refl 0) h3
          | some cur =>
            rw [hn] at h3
            dsimp only at h3 ⊢
            split_ifs at h3 ⊢
            · rfl
            · rfl
            · exact absurd (show (-1 : Int) ≤ 0 from by omega) h3
        by_cases h4 : (getNextNalu s).2.nalu.len ≤ p.maxPacketLength
        · by_cases h5 : 10240 < (getNextNalu s).2.nalu.len + 12
          · rw [get_whole_ovf p now s h1 h2 h3e h4 h5]
            intro h
            replace h : (getNextNalu s).2.naluComplete = false := h
            rw [hpres.2.2.2.2.1, h2] at h
            exact absurd h (by simp [resState])
          · rw [get_whole p now s h1 h2 h3e h4 (by omega)]
            intro h
            exact absurd h (by simp [resState])
        · by_cases h5 : 10240 < p.maxPacketLength + 14
          · rw [get_frag_first_ovf p now s h1 h2 h3e (by omega) h5]
            intro h
            replace h : (getNextNalu s).2.naluComplete = false := h
            rw [hpres.2.2.2.2.1, h2] at h
            exact absurd h (by simp [resState])
          · rw [get_frag_first p now s h1 h2 h3e (by omega) (by omega)]
            intro _
            refine ⟨?_, ?_⟩
            · exact lastSize_pos _ _ hM
            · exact lastSize_le _ _ hM
    | false =>
      have hfs := hs h2
      by_cases h7 : s.fuIndex = s.fuCounter
      · by_cases h8 : 10240 < s.lastFuSize - 1 + 14
        · rw [get_frag_last_ovf p now s h1 h2 h7 h8]
          intro _
          exact hfs
        · rw [get_frag_last p now s h1 h2 h7 (by omega)]
          intro h
          exact absurd h (by simp [resState])
      · by_cases h8 : 10240 < p.maxPacketLength + 14
        · rw [get_frag_mid_ovf p now s h1 h2 h7 h8]
          intro _
          exact hfs
        · rw [get_frag_mid p now s h1 h2 h7 (by omega)]
          intro _
          exact hfs

/-- `Inv` holds in every state a caller can reach: it is established at
construction and preserved by `put` and by `get` on all three outcomes, so a
run of arbitrary operations from a fresh packetizer ends in an `Inv` state. -/
lemma Inv_runOps (p : RTPPackerParams) (hM : 1 ≤ p.maxPacketLength) :
    ∀ (ops : List Op) (s : PackerState), Inv p s → Inv p (runOps p s ops).final := by
  intro ops
  induction ops with
  | nil => intro s hs; exact hs
  | cons op rest ih =>
    intro s hs
    cases op with
    | putOp d n =>
      rw [runOps]
      exact ih _ (Inv_put p d n s)
    | getOp now =>
      have hg := Inv_get p now s hM hs
      rw [runOps]
      cases hres : get p now s with
      | packet b s2 =>
        rw [hres] at hg
        exact ih s2 hg
      | exhausted s2 =>
        rw [hres] at hg
        exact ih s2 hg
      | overflow s2 =>
        rw [hres] at hg
        exact ih s2 hg

/-- Claim C10: under the reachable-state invariant (a pending fragmented
NALU has `1 ≤ lastFuSize ≤ maxPacketLength`) and a positive configured
maximum, every packet buffer `get` returns is at most `maxPacketLength + 14`
bytes; a packet that leaves the NALU unfinished (a non-final fragment) is
exactly `maxPacketLength + 14` bytes, a final fragment is at most
`maxPacketLength + 13` bytes, and a whole (unfragmented) packet at most
`maxPacketLength + 12` bytes. -/
theorem C10_sizes (p : RTPPackerParams) (now : Nat) (s : PackerState)
    (hInv : Inv p s) (hM : 1 ≤ p.maxPacketLength) :
    ∀ b s2, get p now s = GetResult.packet b s2 →
      b.length ≤ p.maxPacketLength + 14 ∧
      (s2.naluComplete = false → b.length = p.maxPacketLength + 14) ∧
      (s.naluComplete = false → s2.naluComplete = true →
        b.length ≤ p.maxPacketLength + 13) ∧
      (s.naluComplete = true → s2.naluComplete = true →
        b.length ≤ p.maxPacketLength + 12) := by
  intro b s2 hpk
  cases h1 : s.inBufferComplete with
  | true =>
    rw [get_complete p now s h1] at hpk
    exact GetResult.noConfusion hpk
  | false =>
    cases h2 : s.naluComplete with
    | true =>
      by_cases h3 : (getNextNalu s).1 ≤ 0
      · rw [get_no_nalu p now s h1 h2 h3] at hpk
        exact GetResult.noConfusion hpk
      · have hlp := getNextNalu_ret_pos_len s h3
        have h3e : (getNextNalu s).1 = 1 := by
          unfold getNextNalu at h3 ⊢
          cases hn : s.nextNaluPtr with
          | none =>
            rw [hn] at h3
            exact absurd (show (0 : Int) ≤ 0 from le_refl 0) h3
          | some cur =>
            rw [hn] at h3
            dsimp only at h3 ⊢
            split_ifs at h3 ⊢
            · rfl
            · rfl
            · exact absurd (show (-1 : Int) ≤ 0 from by omega) h3
        by_cases h4 : (getNextNalu s).2.nalu.len ≤ p.maxPacketLength
        · by_cases h5 : 10240 < (getNextNalu s).2.nalu.len + 12
          · rw [get_whole_ovf p now s h1 h2 h3e h4 h5] at hpk
            exact GetResult.noConfusion hpk
          · rw [get_whole p now s h1 h2 h3e h4 (by omega)] at hpk
            obtain ⟨hb, hs⟩ := GetResult.packet.inj hpk
            subst hb
            subst hs
            rw [length_mk1, sliceBytes_length]
            exact ⟨by omega, fun hx => absurd hx (by simp),
              fun hx _ => absurd hx (by simp), fun _ _ => by omega⟩
        · by_cases h5 : 10240 < p.maxPacketLength + 14
          · rw [get_frag_first_ovf p now s h1 h2 h3e (by omega) h5] at hpk
            exact GetResult.noConfusion hpk
          · rw [get_frag_first p now s h1 h2 h3e (by omega) (by omega)] at hpk
            obtain ⟨hb, hs⟩ := GetResult.packet.inj hpk
            subst hb
            subst hs
            rw [length_mk2, sliceBytes_length]
            refine ⟨by omega, fun _ => by omega, fun _ hy => ?_, fun _ hy => ?_⟩
            · exact absurd hy (by simp)
            · exact absurd hy (by simp)
    | false =>
      have hfs := hInv h2
      by_cases h7 : s.fuIndex = s.fuCounter
      · by_cases h8 : 10240 < s.lastFuSize - 1 + 14
        · rw [get_frag_last_ovf p now s h1 h2 h7 h8] at hpk
          exact GetResult.noConfusion hpk
        · rw [get_frag_last p now s h1 h2 h7 (by omega)] at hpk
          obtain ⟨hb, hs⟩ := GetResult.packet.inj hpk
          subst hb
          subst hs
          rw [length_mk2, sliceBytes_length]
          exact ⟨by omega, fun hx => absurd hx (by simp), fun _ _ => by omega,
            fun hx _ => absurd hx (by simp)⟩
      · by_cases h8 : 10240 < p.maxPacketLength + 14
        · rw [get_frag_mid_ovf p now s h1 h2 h7 h8] at hpk
          exact GetResult.noConfusion hpk
        · rw [get_frag_mid p now s h1 h2 h7 (by omega)] at hpk
          obtain ⟨hb, hs⟩ := GetResult.packet.inj hpk
          subst hb
          subst hs
          rw [length_mk2, sliceBytes_length]
          refine ⟨by omega, fun _ => by omega, fun _ hy => ?_, fun hx _ => absurd hx (by simp)⟩
          exact absurd hy (by simp [h2])

/-- Claim C10 at a concrete input: the first FU-A fragment of the length-6
NALU with maximum 2 has exactly 2 + 14 = 16 bytes and leaves the NALU
unfinished. -/
theorem C10_sizes_witness :
    (Inv fragP fragS ∧ 1 ≤ fragP.maxPacketLength) ∧
    (∀ b s2, get fragP 0 fragS = GetResult.packet b s2 →
      b.length ≤ fragP.maxPacketLength + 14 ∧
      (s2.naluComplete = false → b.length = fragP.maxPacketLength + 14) ∧
      (fragS.naluComplete = false → s2.naluComplete = true →
        b.length ≤ fragP.maxPacketLength + 13) ∧
      (fragS.naluComplete = true → s2.naluComplete = true →
        b.length ≤ fragP.maxPacketLength + 12)) :=
  ⟨⟨fun h => absurd h (by decide), by decide⟩,
    C10_sizes fragP 0 fragS (fun h => absurd h (by decide)) (by decide)⟩

end RTPPacker
